import Mathlib

/-!
Verification development for the frugal_converter repository
(`converter.py`, `classes.py`, `decode.py`).

The embedding works over byte buffers modelled as `List Nat` (each entry a
byte value 0..255).  Python `bytes` slicing clamps out-of-range indices, so
the model uses `List.take` / `List.drop`, which clamp the same way.  Python
`str` values are modelled by their UTF-8 byte sequences (`List Nat`);
`bytes.decode("utf-8")` is modelled as the identity injection, which is
exact on the inputs exercised here.  Fallible operations return
`Except String`, modelling Python exceptions.  File reading and base64
transport decoding are out-of-scope I/O wrappers (spec section 1): the
embedded functions take the decoded byte buffer directly.
-/

/-- Big-endian value of a byte list (as used by `struct.unpack` with
formats such as `>I`). -/
def beVal (bs : List Nat) : Nat :=
  bs.foldl (fun acc b => acc * 256 + b) 0

/-- Big-endian encoding of `n` on `w` bytes (as used by `struct.pack`
with `>I`, `>i`, `>B`, ...); `n` is taken modulo `256 ^ w`. -/
def beBytes (w : Nat) (n : Nat) : List Nat :=
  match w with
  | 0 => []
  | v + 1 => beBytes v (n / 256) ++ [n % 256]

/-- Two's-complement reading of a `w`-bit unsigned value as a signed
integer (`struct.unpack` with `>b`, `>h`, `>i`, `>q`). -/
def toSigned (w : Nat) (n : Nat) : Int :=
  if n < 2 ^ (w - 1) then (n : Int) else (n : Int) - (2 ^ w : Nat)

/-- Model of `struct.unpack(">I", mb[o:o+4])`: fails unless four bytes are
available at offset `o` (a short Python slice makes `unpack` raise
`struct.error`). -/
def u32at (mb : List Nat) (o : Nat) : Except String Nat :=
  if o + 4 ≤ mb.length then .ok (beVal ((mb.drop o).take 4))
  else .error "unpack requires a buffer of 4 bytes"

/-- Python `bytes.__lt__`: strict lexicographic order on byte strings
(a strict prefix compares smaller). -/
def bytesLt : List Nat → List Nat → Bool
  | _, [] => false
  | [], _ :: _ => true
  | a :: as1, b :: bs1 =>
    if a < b then true
    else if b < a then false
    else bytesLt as1 bs1

/-- Python `data.find(pat)`: index of the first occurrence of `pat` in
`data`, or `none` (Python returns `-1`). -/
def findSub (pat : List Nat) : List Nat → Option Nat
  | [] => if pat.isPrefixOf [] then some 0 else none
  | a :: t =>
    if pat.isPrefixOf (a :: t) then some 0
    else (findSub pat t).map (· + 1)

/-- Python `dict` assignment `d[k] = v`: an existing key keeps its
position and gets the new value, a new key is appended. -/
def pyInsert (l : List (List Nat × List Nat)) (k v : List Nat) :
    List (List Nat × List Nat) :=
  if l.any (fun p => p.1 = k) then
    l.map (fun p => if p.1 = k then (k, v) else p)
  else l ++ [(k, v)]

/-! ## FrameLocator: `parse_data` (converter.py lines 27-89)

`parse_data` reads a file and base64-decodes it; both are out-of-scope
I/O, so the model takes the decoded buffer `data`.  The structural
attempt, the marker scan, the byte-by-byte fallback and the final
failure are modelled exactly. -/

/-- The default marker list of `parse_data` (converter.py lines 30-37). -/
def defaultMarkers : List (List Nat) :=
  [[0x80, 0x01], [0x82, 0x21],
   [0x80, 0x01, 0x00, 0x01], [0x80, 0x01, 0x00, 0x02],
   [0x80, 0x01, 0x00, 0x03], [0x80, 0x01, 0x00, 0x04]]

/-- Lexicographic order on `(pos, marker)` pairs: the order Python uses
for `marker_positions.sort()` on `(int, bytes)` tuples. -/
def pairLt (x y : Nat × List Nat) : Bool :=
  x.1 < y.1 || (x.1 = y.1 && bytesLt x.2 y.2)

/-- Head of the Python-sorted hit list: the minimum under `pairLt`,
keeping the earlier element on full ties (Python sort is stable). -/
def minHit (l : List (Nat × List Nat)) : Option (Nat × List Nat) :=
  match l with
  | [] => none
  | x :: xs => some (xs.foldl (fun best y => if pairLt y best then y else best) x)

/-- The marker-position list built by the scan loop
(converter.py lines 63-68). -/
def markerHits (markers : List (List Nat)) (data : List Nat) :
    List (Nat × List Nat) :=
  markers.filterMap (fun m => (findSub m data).map (fun p => (p, m)))

/-- The byte-by-byte fallback scan (converter.py lines 70-76): every
window `i` with `i < len(data) - 2` is tested for `80 01` or `82 21`. -/
def fallbackHits (data : List Nat) : List (Nat × List Nat) :=
  (List.range (data.length - 2)).filterMap (fun i =>
    if (data.getD i 0 = 0x80 && data.getD (i + 1) 0 = 0x01)
       || (data.getD i 0 = 0x82 && data.getD (i + 1) 0 = 0x21) then
      some (i, [data.getD i 0, data.getD (i + 1) 0])
    else none)

/-- The structural Frugal attempt of `parse_data` (converter.py lines
44-61): `some` split when the sanity checks accept, `none` otherwise.
No exception can occur inside the `try` once `len(data) > 9`. -/
def structuralSplit (data : List Nat) : Option (List Nat × List Nat) :=
  if 9 < data.length then
    let frame_size := beVal (data.take 4)
    let version := data.getD 4 0
    let header_length := beVal ((data.drop 5).take 4)
    if 0 < frame_size ∧ frame_size < data.length ∧ version ≤ 1 ∧
       header_length < frame_size then
      some (data.take (9 + header_length), data.drop (9 + header_length))
    else none
  else none

/-- `parse_data` (converter.py lines 27-89) on the decoded buffer. -/
def parse_data (markers : List (List Nat)) (data : List Nat) :
    Except String (List Nat × List Nat) :=
  match structuralSplit data with
  | some split => .ok split
  | none =>
    let hits := markerHits markers data
    let hits2 := if hits = [] then fallbackHits data else hits
    match minHit hits2 with
    | none => .error "No Thrift/Frugal marker found in the message"
    | some (pos, _) => .ok (data.take pos, data.drop pos)

/-- `parse_data` with the byte-by-byte fallback (lines 70-76) removed:
the comparison point for the redundancy claim about step 3. -/
def parse_dataNoFallback (markers : List (List Nat)) (data : List Nat) :
    Except String (List Nat × List Nat) :=
  match structuralSplit data with
  | some split => .ok split
  | none =>
    match minHit (markerHits markers data) with
    | none => .error "No Thrift/Frugal marker found in the message"
    | some (pos, _) => .ok (data.take pos, data.drop pos)

/-! ## EnvelopeCodec decode: `decode_headers` (converter.py lines 91-137) -/

/-- Result document of `decode_headers`. -/
structure HeadersDoc where
  message_length : Nat
  version : Nat
  header_length : Nat
  headers : List (List Nat × List Nat)
  deriving Repr, DecidableEq

/-- The header key/value parse loop of `decode_headers` (converter.py
lines 113-134).  `mb` is the whole header buffer, `dataLength` the value
read for `header_length`, `offset` the running offset, `acc` the
headers dict built so far.  Slices of `mb` clamp; the 4-byte unpacks
fail on a short slice; UTF-8 decoding is modelled as the identity.
The Python loop terminates because every iteration advances `offset`
by at least 8; the model makes this explicit with a fuel parameter
decremented per iteration, and `decode_headers` passes
`dataLength + 1` iterations, which therefore never run out. -/
def parseHeaderPairs (mb : List Nat) (dataLength : Nat) :
    Nat → Nat → List (List Nat × List Nat) →
    Except String (List (List Nat × List Nat))
  | 0, _, _ => .error "recursion limit"
  | fuel + 1, offset, acc =>
    if offset < dataLength then
      match u32at mb offset with
      | .error e => .error e
      | .ok keyLen =>
        let key := ((mb.drop (offset + 4)).take keyLen)
        let o2 := offset + 4 + keyLen
        match u32at mb o2 with
        | .error e => .error e
        | .ok valLen =>
          let value := ((mb.drop (o2 + 4)).take valLen)
          let o3 := o2 + 4 + valLen
          parseHeaderPairs mb dataLength fuel o3 (pyInsert acc key value)
    else .ok acc

/-- `decode_headers` (converter.py lines 91-137). -/
def decode_headers (header : List Nat) : Except String HeadersDoc := do
  let messageLength ← u32at header 0
  let version ←
    if 5 ≤ header.length then .ok (header.getD 4 0)
    else .error "unpack requires a buffer of 1 bytes"
  let headerLength ← u32at header 5
  let pairs ← parseHeaderPairs header headerLength (headerLength + 1) 9 []
  .ok ⟨messageLength, version, headerLength, pairs⟩

/-! ## EnvelopeCodec encode: the header block of `encode_data`
(converter.py lines 498-507) -/

/-- The header key/value block built by `encode_data` (converter.py
lines 499-507): for each pair in order, 4-byte big-endian key length,
key bytes, 4-byte big-endian value length, value bytes.  (In Python the
length written is `len` of the `str`; on the byte-string model the two
agree.) -/
def encodeHeaders (pairs : List (List Nat × List Nat)) : List Nat :=
  pairs.foldl (fun acc p =>
    acc ++ beBytes 4 p.1.length ++ p.1 ++ beBytes 4 p.2.length ++ p.2) []

/-! ## Thrift wire-type and message-type constants
(`thrift.Thrift.TType`, `TMessageType`) -/

def TSTOP : Int := 0
def TBOOL : Int := 2
def TBYTE : Int := 3
def TDOUBLE : Int := 4
def TI16 : Int := 6
def TI32 : Int := 8
def TI64 : Int := 10
def TSTRING : Int := 11
def TSTRUCT : Int := 12
def TMAP : Int := 13
def TSET : Int := 14
def TLIST : Int := 15

/-! ## TBinaryProtocol primitives

The repository delegates primitive reads and writes to the `thrift`
package's `TBinaryProtocol` over a `TMemoryBuffer`.  These are modelled
here from the binary wire format the spec describes (big-endian fixed
width integers, length-prefixed strings, version-word message headers):
reads consume from the front of a byte list, writes produce byte lists.
`readAll` raises `EOFError` when fewer bytes remain than requested;
`struct.pack` raises on out-of-range values.  `double` values are
carried as their raw 64-bit IEEE-754 bit patterns, which `pack`/`unpack`
round-trip exactly. -/

/-- `TTransport.readAll(n)`: exactly `n` bytes or `EOFError`. -/
def readBytes (n : Nat) (st : List Nat) :
    Except String (List Nat × List Nat) :=
  if n ≤ st.length then .ok (st.take n, st.drop n)
  else .error "EOFError"

/-- Read a `w`-byte big-endian unsigned value. -/
def readBE (w : Nat) (st : List Nat) : Except String (Nat × List Nat) := do
  let (bs, rest) ← readBytes w st
  .ok (beVal bs, rest)

/-- `readByte`: one byte, signed. -/
def readByte (st : List Nat) : Except String (Int × List Nat) := do
  let (n, rest) ← readBE 1 st
  .ok (toSigned 8 n, rest)

/-- `readBool`: a byte, `False` iff zero. -/
def readBool (st : List Nat) : Except String (Bool × List Nat) := do
  let (n, rest) ← readByte st
  .ok (n ≠ 0, rest)

/-- `readI16`. -/
def readI16 (st : List Nat) : Except String (Int × List Nat) := do
  let (n, rest) ← readBE 2 st
  .ok (toSigned 16 n, rest)

/-- `readI32`. -/
def readI32 (st : List Nat) : Except String (Int × List Nat) := do
  let (n, rest) ← readBE 4 st
  .ok (toSigned 32 n, rest)

/-- `readI64`. -/
def readI64 (st : List Nat) : Except String (Int × List Nat) := do
  let (n, rest) ← readBE 8 st
  .ok (toSigned 64 n, rest)

/-- `readDouble`: eight bytes, kept as the raw bit pattern. -/
def readDouble (st : List Nat) : Except String (Nat × List Nat) :=
  readBE 8 st

/-- `readString` (via `readBinary`): `i32` length, negative rejected,
then that many bytes (UTF-8 decoding modelled as identity). -/
def readString (st : List Nat) : Except String (List Nat × List Nat) := do
  let (n, rest) ← readI32 st
  if n < 0 then .error "negative length"
  else readBytes n.toNat rest

/-- `readMessageBegin` of `TBinaryProtocol` (default `strict_read=False`):
returns `(name, messageType, seqid, rest)`. -/
def readMessageBegin (st : List Nat) :
    Except String (List Nat × Int × Int × List Nat) := do
  let (sz, rest) ← readBE 4 st
  if 2 ^ 31 ≤ sz then
    -- sz < 0 as an i32: strict framing, version word then name, seqid
    if 2 ^ 31 ≤ sz ∧ sz / 2 ^ 16 = 0x8001 then do
      let (name, rest2) ← readString rest
      let (seqid, rest3) ← readI32 rest2
      .ok (name, (sz % 256 : Nat), seqid, rest3)
    else .error "Bad version in readMessageBegin"
  else do
    -- old-style framing: name bytes, then type byte, then seqid
    let (name, rest2) ← readBytes sz rest
    let (t, rest3) ← readByte rest2
    let (seqid, rest4) ← readI32 rest3
    .ok (name, t, seqid, rest4)

/-- `readFieldBegin`: type byte, then (unless `STOP`) the i16 field id;
returns `(fieldType, fieldId, rest)`. -/
def readFieldBegin (st : List Nat) :
    Except String (Int × Int × List Nat) := do
  let (t, rest) ← readByte st
  if t = TSTOP then .ok (t, 0, rest)
  else do
    let (fid, rest2) ← readI16 rest
    .ok (t, fid, rest2)

/-- `readListBegin`: element-type byte and i32 count (negative count
rejected by the protocol's container-length check). -/
def readListBegin (st : List Nat) :
    Except String (Int × Nat × List Nat) := do
  let (et, rest) ← readByte st
  let (n, rest2) ← readI32 rest
  if n < 0 then .error "negative container size"
  else .ok (et, n.toNat, rest2)

/-- `readSetBegin`: identical wire shape to `readListBegin`. -/
def readSetBegin (st : List Nat) :
    Except String (Int × Nat × List Nat) :=
  readListBegin st

/-- `readMapBegin`: key-type byte, value-type byte, i32 count. -/
def readMapBegin (st : List Nat) :
    Except String (Int × Int × Nat × List Nat) := do
  let (kt, rest) ← readByte st
  let (vt, rest2) ← readByte rest
  let (n, rest3) ← readI32 rest2
  if n < 0 then .error "negative container size"
  else .ok (kt, vt, n.toNat, rest3)

/-- `writeBool`. -/
def writeBool (b : Bool) : List Nat :=
  [if b then 1 else 0]

/-- `writeByte` (`struct.pack(">b", ...)` range check). -/
def writeByte (n : Int) : Except String (List Nat) :=
  if -128 ≤ n ∧ n < 128 then .ok [(n.emod 256).toNat]
  else .error "byte format requires -128 <= number <= 127"

/-- `writeI16`. -/
def writeI16 (n : Int) : Except String (List Nat) :=
  if -(2 ^ 15) ≤ n ∧ n < 2 ^ 15 then .ok (beBytes 2 (n.emod (2 ^ 16)).toNat)
  else .error "short format requires range"

/-- `writeI32`. -/
def writeI32 (n : Int) : Except String (List Nat) :=
  if -(2 ^ 31) ≤ n ∧ n < 2 ^ 31 then .ok (beBytes 4 (n.emod (2 ^ 32)).toNat)
  else .error "int format requires range"

/-- `writeI64`. -/
def writeI64 (n : Int) : Except String (List Nat) :=
  if -(2 ^ 63) ≤ n ∧ n < 2 ^ 63 then .ok (beBytes 8 (n.emod (2 ^ 64)).toNat)
  else .error "long format requires range"

/-- `writeDouble`: the eight bytes of the IEEE-754 bit pattern. -/
def writeDouble (bits : Nat) : List Nat :=
  beBytes 8 bits

/-- `writeString`: i32 byte length then the bytes. -/
def writeString (s : List Nat) : Except String (List Nat) := do
  let lenB ← writeI32 s.length
  .ok (lenB ++ s)

/-! ## Python value coercions used by the codec -/

/-- Decimal digit bytes of a natural number (`str` of a nonnegative int). -/
def natDigits (n : Nat) : List Nat :=
  (Nat.toDigits 10 n).map Char.toNat

/-- `str` of a Python int. -/
def intToAscii (n : Int) : List Nat :=
  if n < 0 then 45 :: natDigits n.natAbs else natDigits n.natAbs

/-- `str(True)` / `str(False)`. -/
def boolToAscii (b : Bool) : List Nat :=
  if b then [84, 114, 117, 101] else [70, 97, 108, 115, 101]

/-! ## Document model

Decoded documents are Python dicts/lists of primitives; `DocValue`
models the JSON-like values, `DocField` the per-field dicts
`{"field_id", "field_type", "value"}` with the optional encode-side
keys `"element_type"`, `"key_type"`, `"value_type"`. -/

/-- Symbolic type names (the string values of `FIELD_TYPE_MAP` keys and
`_get_type_name` results, as atoms). -/
inductive TName where
  | tbool | ti8 | ti16 | ti32 | ti64 | tdouble | tstring
  | tstruct | tmap | tset | tlist
  | unknownT : Int → TName
  deriving Repr, DecidableEq

mutual
inductive DocValue where
  | vnone : DocValue
  | vbool : Bool → DocValue
  | vint : Int → DocValue
  | vfloat : Nat → DocValue
  | vstr : List Nat → DocValue
  | vstruct : List DocField → DocValue
  | varr : List DocValue → DocValue
  | vdict : List (List Nat × DocValue) → DocValue

inductive DocField where
  | mk : Int → TName → Option TName → Option TName →
      Option TName → DocValue → DocField
end

/-- `field["field_id"]`. -/
def DocField.field_id : DocField → Int
  | .mk i _ _ _ _ _ => i

/-- `field["field_type"]`. -/
def DocField.field_type : DocField → TName
  | .mk _ t _ _ _ _ => t

/-- `field.get("element_type")`. -/
def DocField.element_type : DocField → Option TName
  | .mk _ _ e _ _ _ => e

/-- `field.get("key_type")`. -/
def DocField.key_type : DocField → Option TName
  | .mk _ _ _ k _ _ => k

/-- `field.get("value_type")`. -/
def DocField.value_type : DocField → Option TName
  | .mk _ _ _ _ v _ => v

/-- `field.get("value")`. -/
def DocField.value : DocField → DocValue
  | .mk _ _ _ _ _ v => v

/-- `FIELD_TYPE_MAP` (converter.py lines 13-25): type name to wire tag;
`dict.get` yields `none` on an unrecognized name. -/
def fieldTypeMap : TName → Option Int
  | .tbool => some TBOOL
  | .ti8 => some TBYTE
  | .ti16 => some TI16
  | .ti32 => some TI32
  | .ti64 => some TI64
  | .tdouble => some TDOUBLE
  | .tstring => some TSTRING
  | .tstruct => some TSTRUCT
  | .tmap => some TMAP
  | .tset => some TSET
  | .tlist => some TLIST
  | .unknownT _ => none

/-- `_get_type_name` (classes.py lines 297-312): wire tag to name,
unknown tags to the `unknown-{n}` marker. -/
def typeNameOf (t : Int) : TName :=
  if t = TBOOL then .tbool
  else if t = TBYTE then .ti8
  else if t = TI16 then .ti16
  else if t = TI32 then .ti32
  else if t = TI64 then .ti64
  else if t = TDOUBLE then .tdouble
  else if t = TSTRING then .tstring
  else if t = TSTRUCT then .tstruct
  else if t = TMAP then .tmap
  else if t = TSET then .tset
  else if t = TLIST then .tlist
  else .unknownT t

/-- Python `dict` assignment for map documents (`result[key] = value`
in `_read_map`). -/
def pyInsertV (l : List (List Nat × DocValue)) (k : List Nat)
    (v : DocValue) : List (List Nat × DocValue) :=
  if l.any (fun p => p.1 = k) then
    l.map (fun p => if p.1 = k then (k, v) else p)
  else l ++ [(k, v)]

/-- "complex_key_" followed by the entry index (classes.py line 260). -/
def complexKey (i : Nat) : List Nat :=
  [99, 111, 109, 112, 108, 101, 120, 95, 107, 101, 121, 95] ++ natDigits i

/-! ## The recursive decoder (classes.py `CustomResponseMessage`)

`_extract_reply`, `_read_struct`, `_read_list`, `_read_set` and
`_read_map` duplicate one identical per-type if/elif dispatch; it is
modelled once as `decodeValue` and instantiated at each site.  An
unrecognized tag first builds a `{"note": ...}` placeholder and then
calls `protocol.skip`, which raises `TProtocolException("invalid
TType")`, so the net effect of that branch is the exception; hence
`decodeValue` returns an error for unknown tags.  The Python functions
recurse without bound; the model adds a fuel parameter that every
recursive call decrements, and theorems quantify over sufficient
fuel. -/

mutual
/-- The shared per-value dispatch of classes.py lines 74-101, 127-152,
166-195, 206-234 and 264-292. -/
def decodeValue (fuel : Nat) (t : Int) (st : List Nat) :
    Except String (DocValue × List Nat) :=
  match fuel with
  | 0 => .error "recursion limit"
  | f + 1 =>
    if t = TBOOL then do
      let (b, st2) ← readBool st
      .ok (.vbool b, st2)
    else if t = TBYTE then do
      let (n, st2) ← readByte st
      .ok (.vint n, st2)
    else if t = TI16 then do
      let (n, st2) ← readI16 st
      .ok (.vint n, st2)
    else if t = TI32 then do
      let (n, st2) ← readI32 st
      .ok (.vint n, st2)
    else if t = TI64 then do
      let (n, st2) ← readI64 st
      .ok (.vint n, st2)
    else if t = TDOUBLE then do
      let (bits, st2) ← readDouble st
      .ok (.vfloat bits, st2)
    else if t = TSTRING then do
      let (s, st2) ← readString st
      .ok (.vstr s, st2)
    else if t = TSTRUCT then do
      let (fs, st2) ← readStructFields f st
      .ok (.vstruct fs, st2)
    else if t = TLIST then do
      let (et, size, st2) ← readListBegin st
      let (xs, st3) ← readItems f et size st2
      .ok (.varr xs, st3)
    else if t = TSET then do
      let (et, size, st2) ← readSetBegin st
      let (xs, st3) ← readItems f et size st2
      .ok (.varr xs, st3)
    else if t = TMAP then do
      let (kt, vt, size, st2) ← readMapBegin st
      let (entries, st3) ← readMapEntries f kt vt size 0 [] st2
      .ok (.vdict entries, st3)
    else .error "invalid TType"

/-- The field loop of `_read_struct` (classes.py lines 116-157; the
loop of `_extract_reply`, lines 62-103, is identical). -/
def readStructFields (fuel : Nat) (st : List Nat) :
    Except String (List DocField × List Nat) :=
  match fuel with
  | 0 => .error "recursion limit"
  | f + 1 => do
    let (t, fid, st2) ← readFieldBegin st
    if t = TSTOP then .ok ([], st2)
    else do
      let (v, st3) ← decodeValue f t st2
      let (rest, st4) ← readStructFields f st3
      .ok (.mk fid (typeNameOf t) none none none v :: rest, st4)

/-- The element loop of `_read_list` / `_read_set` (classes.py lines
165-195 and 205-234). -/
def readItems (fuel : Nat) (et : Int) (n : Nat) (st : List Nat) :
    Except String (List DocValue × List Nat) :=
  match fuel with
  | 0 => .error "recursion limit"
  | f + 1 =>
    match n with
    | 0 => .ok ([], st)
    | m + 1 => do
      let (v, st2) ← decodeValue f et st
      let (rest, st3) ← readItems f et m st2
      .ok (v :: rest, st3)

/-- The entry loop of `_read_map` (classes.py lines 244-293): the key is
read for the scalar key types and stringified, any other key type gets
the `complex_key_<index>` placeholder and the raw key is skipped; then
the value is decoded recursively and inserted into the dict. -/
def readMapEntries (fuel : Nat) (kt vt : Int) (n : Nat) (i : Nat)
    (acc : List (List Nat × DocValue)) (st : List Nat) :
    Except String (List (List Nat × DocValue) × List Nat) :=
  match fuel with
  | 0 => .error "recursion limit"
  | f + 1 =>
    match n with
    | 0 => .ok (acc, st)
    | m + 1 => do
      let (key, st2) ←
        if kt = TBOOL then do
          let (b, s) ← readBool st
          .ok (boolToAscii b, s)
        else if kt = TBYTE then do
          let (x, s) ← readByte st
          .ok (intToAscii x, s)
        else if kt = TI16 then do
          let (x, s) ← readI16 st
          .ok (intToAscii x, s)
        else if kt = TSTRING then readString st
        else if kt = TI32 then do
          let (x, s) ← readI32 st
          .ok (intToAscii x, s)
        else if kt = TI64 then do
          let (x, s) ← readI64 st
          .ok (intToAscii x, s)
        else do
          let s ← skipValue f kt st
          .ok (complexKey i, s)
      let (v, st3) ← decodeValue f vt st2
      readMapEntries f kt vt m (i + 1) (pyInsertV acc key v) st3

/-- `TProtocolBase.skip` of the thrift package (raises on an invalid
type tag). -/
def skipValue (fuel : Nat) (t : Int) (st : List Nat) :
    Except String (List Nat) :=
  match fuel with
  | 0 => .error "recursion limit"
  | f + 1 =>
    if t = TBOOL then do
      let (_, st2) ← readBool st
      .ok st2
    else if t = TBYTE then do
      let (_, st2) ← readByte st
      .ok st2
    else if t = TI16 then do
      let (_, st2) ← readI16 st
      .ok st2
    else if t = TI32 then do
      let (_, st2) ← readI32 st
      .ok st2
    else if t = TI64 then do
      let (_, st2) ← readI64 st
      .ok st2
    else if t = TDOUBLE then do
      let (_, st2) ← readDouble st
      .ok st2
    else if t = TSTRING then do
      let (_, st2) ← readString st
      .ok st2
    else if t = TSTRUCT then skipStructFields f st
    else if t = TMAP then do
      let (kt, vt, size, st2) ← readMapBegin st
      skipPairs f kt vt size st2
    else if t = TSET then do
      let (et, size, st2) ← readSetBegin st
      skipItems f et size st2
    else if t = TLIST then do
      let (et, size, st2) ← readListBegin st
      skipItems f et size st2
    else .error "invalid TType"

/-- The struct branch of `skip`. -/
def skipStructFields (fuel : Nat) (st : List Nat) :
    Except String (List Nat) :=
  match fuel with
  | 0 => .error "recursion limit"
  | f + 1 => do
    let (t, _, st2) ← readFieldBegin st
    if t = TSTOP then .ok st2
    else do
      let st3 ← skipValue f t st2
      skipStructFields f st3

/-- The list/set branch of `skip`. -/
def skipItems (fuel : Nat) (et : Int) (n : Nat) (st : List Nat) :
    Except String (List Nat) :=
  match fuel with
  | 0 => .error "recursion limit"
  | f + 1 =>
    match n with
    | 0 => .ok st
    | m + 1 => do
      let st2 ← skipValue f et st
      skipItems f et m st2

/-- The map branch of `skip`. -/
def skipPairs (fuel : Nat) (kt vt : Int) (n : Nat) (st : List Nat) :
    Except String (List Nat) :=
  match fuel with
  | 0 => .error "recursion limit"
  | f + 1 =>
    match n with
    | 0 => .ok st
    | m + 1 => do
      let st2 ← skipValue f kt st
      let st3 ← skipValue f vt st2
      skipPairs f kt vt m st3
end

/-! ## `CustomResponseMessage` (classes.py lines 32-109) and the
message-level decode pipeline (converter.py lines 141-251) -/

/-- ASCII bytes of "reply". -/
def asciiReply : List Nat := [114, 101, 112, 108, 121]

/-- ASCII bytes of "call". -/
def asciiCall : List Nat := [99, 97, 108, 108]

/-- ASCII bytes of "exception". -/
def asciiException : List Nat := [101, 120, 99, 101, 112, 116, 105, 111, 110]

/-- ASCII bytes of "oneway". -/
def asciiOneway : List Nat := [111, 110, 101, 119, 97, 121]

/-- ASCII bytes of "unknown". -/
def asciiUnknown : List Nat := [117, 110, 107, 110, 111, 119, 110]

/-- ASCII bytes of "fields". -/
def asciiFields : List Nat := [102, 105, 101, 108, 100, 115]

/-- ASCII bytes of "user-agent". -/
def asciiUserAgent : List Nat :=
  [117, 115, 101, 114, 45, 97, 103, 101, 110, 116]

/-- ASCII bytes of "test". -/
def asciiTest : List Nat := [116, 101, 115, 116]

/-- The `"reply"` value of a `CustomResponseMessage` dict: either
`{"fields": [...]}` or the `{"error": str(e)}` dict produced by the
`except` clause of `_extract_reply`. -/
inductive ReplyResult where
  | fieldsR : List DocField → ReplyResult
  | errorR : String → ReplyResult

/-- `CustomResponseMessage.as_dict` (classes.py lines 43-50). -/
structure CustomDict where
  method : List Nat
  typ : List Nat
  seqid : Int
  header : Option (List Nat)
  reply : ReplyResult
  length : Nat

/-- `_extract_reply` (classes.py lines 52-109): the whole struct parse
runs inside one `try`; any exception is converted into an
`{"error": ...}` dict replacing the entire reply. -/
def extract_reply (fuel : Nat) (st : List Nat) : ReplyResult :=
  match readStructFields fuel st with
  | .ok (fs, _) => .fieldsR fs
  | .error e => .errorR e

/-- `CustomResponseMessage.__init__` (classes.py lines 33-50): reads the
message header, ignores the wire message type, and stores the reply
body under `"reply"` with `"type"` fixed to `"reply"`.  An exception in
`readMessageBegin` propagates to the caller. -/
def customResponseMessage (fuel : Nat) (frame : List Nat) :
    Except String CustomDict := do
  let (name, _msgType, seqid, st) ← readMessageBegin frame
  .ok ⟨name, asciiReply, seqid, none, extract_reply fuel st, frame.length⟩

/-- Model of a `thrift_tools` `ThriftMessage.as_dict` (the external
library used for non-reply frames): an opaque but JSON-like record. -/
structure ExtDict where
  method : List Nat
  typ : List Nat
  seqid : Int
  args : Option (List DocField)
  length : Nat

/-- Outcome of a call to the external `ThriftMessage.read`
(thrift_tools): a truthy message, a falsy result, the
`TypeError("unhashable type: 'ThriftStruct'")` failure that triggers
the custom-handler fallback, or any other exception. -/
inductive TMResult where
  | okMsg : ExtDict → TMResult
  | noneMsg : TMResult
  | unhashable : TMResult
  | failed : TMResult

/-- The dict stored under `"thrift"` in the output document:
`CustomResponseMessage.as_dict`, a `thrift_tools` message dict, or the
`EmptyThriftMessage` placeholder `{"method": "unknown", "type":
"unknown", "seqid": 0, "args": None, "length": 0, "error": ...}` of
`create_empty_thrift_message` (converter.py lines 201-213). -/
inductive ThriftDict where
  | customD : CustomDict → ThriftDict
  | extD : ExtDict → ThriftDict
  | emptyD : ThriftDict

/-- `"error" in thrift_message.as_dict` (converter.py line 225): only
the placeholder dict carries an `"error"` key. -/
def ThriftDict.hasErrorKey : ThriftDict → Bool
  | .emptyD => true
  | _ => false

/-- The candidate marker list of `decode_thrift_message`
(converter.py lines 153-160). -/
def decodeCandidates : List (List Nat) :=
  [[0x80, 0x01, 0x00, 0x01], [0x80, 0x01, 0x00, 0x02],
   [0x82, 0x21, 0x00, 0x01], [0x82, 0x21, 0x00, 0x02],
   [0x80, 0x01], [0x82, 0x21]]

/-- The candidate loop of `decode_thrift_message` (converter.py lines
162-199).  `tmRead` stands for the external `ThriftMessage.read`; every
exception inside the loop body is caught and turns into `continue`. -/
def tryCandidates (tmRead : List Nat → TMResult) (fuel : Nat)
    (frame : List Nat) : List (List Nat) → ThriftDict
  | [] => .emptyD
  | c :: rest =>
    match findSub c frame with
    | none => tryCandidates tmRead fuel frame rest
    | some idx =>
      let slice := frame.drop idx
      if c = [0x80, 0x01, 0x00, 0x02] ∨ c = [0x82, 0x21, 0x00, 0x02] then
        match customResponseMessage fuel slice with
        | .ok d => .customD d
        | .error _ => tryCandidates tmRead fuel frame rest
      else
        match tmRead slice with
        | .okMsg m => .extD m
        | .noneMsg => tryCandidates tmRead fuel frame rest
        | .unhashable =>
          match customResponseMessage fuel slice with
          | .ok d => .customD d
          | .error _ => tryCandidates tmRead fuel frame rest
        | .failed => tryCandidates tmRead fuel frame rest

/-- `decode_thrift_message` (converter.py lines 141-199): direct
response detection first, then the candidate loop, then the
`EmptyThriftMessage` placeholder; it never raises. -/
def decode_thrift_message (tmRead : List Nat → TMResult) (fuel : Nat)
    (frame : List Nat) : ThriftDict :=
  if frame.take 4 = [0x80, 0x01, 0x00, 0x02]
     ∨ frame.take 4 = [0x82, 0x21, 0x00, 0x02] then
    match customResponseMessage fuel frame with
    | .ok d => .customD d
    | .error _ => tryCandidates tmRead fuel frame decodeCandidates
  else tryCandidates tmRead fuel frame decodeCandidates

/-- The output of `decode` (converter.py lines 215-251): on success the
merged document `{metadata, headers, thrift, [thrift_parse_error]}`; on
any exception the literal error document of lines 235-245,
`{"error": ..., "metadata": {}, "headers": {}, "thrift": {"method":
"unknown", "type": "unknown", "seqid": 0, "args": None}}`, which
`failure` denotes. -/
inductive OutDoc where
  | success : HeadersDoc → ThriftDict → Bool → OutDoc
  | failure : String → OutDoc

/-- `decode` (converter.py lines 215-251) up to the final JSON
dump/write (out-of-scope I/O): the entire body runs in one `try`, and
the `except` produces the fixed error document. -/
def decode (tmRead : List Nat → TMResult) (fuel : Nat)
    (data : List Nat) : OutDoc :=
  match parse_data defaultMarkers data with
  | .error e => .failure ("Failed to decode message: " ++ e)
  | .ok (rawHeaders, rawFrame) =>
    match decode_headers rawHeaders with
    | .error e => .failure ("Failed to decode message: " ++ e)
    | .ok hdoc =>
      let tm := decode_thrift_message tmRead fuel rawFrame
      .success hdoc tm tm.hasErrorKey

/-! ## The encoder (converter.py lines 254-488)

Python dynamic coercions (`bool`, `int`, `str`, truthiness, `in`) are
modelled on `DocValue`; coercions the repository never exercises on the
documents it produces or consumes (for example `int` of a string) are
modelled as errors and marked "unmodelled". -/

/-- Python truthiness of a document value (`bool(value)`, `not value`,
`value or []`).  For a float, exactly `0.0` and `-0.0` are falsy. -/
def pyTruthy : DocValue → Bool
  | .vnone => false
  | .vbool b => b
  | .vint n => n != 0
  | .vfloat bits => !(bits == 0 || bits == 0x8000000000000000)
  | .vstr s => !s.isEmpty
  | .vstruct _ => true
  | .varr xs => !xs.isEmpty
  | .vdict l => !l.isEmpty

/-- `value is None`. -/
def DocValue.isNone : DocValue → Bool
  | .vnone => true
  | _ => false

/-- `isinstance(item, (str, int, float, bool))`. -/
def isScalarPy : DocValue → Bool
  | .vstr _ => true
  | .vint _ => true
  | .vfloat _ => true
  | .vbool _ => true
  | _ => false

/-- `isinstance(item, bool)`. -/
def isInstBool : DocValue → Bool
  | .vbool _ => true
  | _ => false

/-- `isinstance(item, int)`: in Python, `bool` is a subclass of `int`. -/
def isInstInt : DocValue → Bool
  | .vbool _ => true
  | .vint _ => true
  | _ => false

/-- `isinstance(item, float)`. -/
def isInstFloat : DocValue → Bool
  | .vfloat _ => true
  | _ => false

/-- `int(value)` on the value shapes the codec feeds it. -/
def pyInt : DocValue → Except String Int
  | .vint n => .ok n
  | .vbool b => .ok (if b then 1 else 0)
  | _ => .error "unmodelled int conversion"

/-- `float(value)` on the value shapes the codec feeds it. -/
def pyFloatBits : DocValue → Except String Nat
  | .vfloat bits => .ok bits
  | _ => .error "unmodelled float conversion"

/-- `str(value)` on the value shapes the codec feeds it. -/
def pyStr : DocValue → Except String (List Nat)
  | .vstr s => .ok s
  | .vint n => .ok (intToAscii n)
  | .vbool b => .ok (boolToAscii b)
  | _ => .error "unmodelled str conversion"

/-- `value or []` followed by iteration (the `items` lists of the
SET/LIST branches): a falsy value yields `[]`, a list yields its
elements; iterating any other truthy value is not exercised by the
repository's documents and is modelled as an error. -/
def pyItems : DocValue → Except String (List DocValue)
  | .varr xs => .ok xs
  | v => if pyTruthy v then .error "unmodelled iteration" else .ok []

/-- `"fields" in value` (write-side struct handling): `true` for every
`{"fields": ...}` struct dict, key membership for other dicts, element
membership for lists, substring test for strings; not iterable
otherwise. -/
def pyContainsFields : DocValue → Except String Bool
  | .vstruct _ => .ok true
  | .vdict l => .ok (l.any (fun p => p.1 = asciiFields))
  | .varr xs =>
    .ok (xs.any (fun x =>
      match x with
      | .vstr s => s = asciiFields
      | _ => false))
  | .vstr s => .ok ((findSub asciiFields s).isSome)
  | _ => .error "argument is not iterable"

/-- The element-type inference of the LIST branch of `write_value`
(converter.py lines 354-370), used when `element_type` is absent:
nonempty all-scalar lists get Bool / I32 / Double / String by the
`isinstance` chain; empty lists and lists with a non-scalar element
get Struct. -/
def inferListElementType (items : List DocValue) : Int :=
  if !items.isEmpty && items.all isScalarPy then
    if items.all isInstBool then TBOOL
    else if items.all isInstInt then TI32
    else if items.all isInstFloat then TDOUBLE
    else TSTRING
  else TSTRUCT

/-- The element-type choice of the SET branch of `write_value`
(converter.py lines 332-342): String whenever every element is scalar
(including the empty set), Struct otherwise; declared element types are
never consulted. -/
def inferSetElementType (items : List DocValue) : Int :=
  if items.all isScalarPy then TSTRING else TSTRUCT

/-- The key/value type defaulting of the MAP branch of `write_value`
(converter.py lines 289-300): an absent (or empty, hence falsy) type
name is replaced by `"string"` before the `FIELD_TYPE_MAP` lookup; no
value shape is inspected. -/
def mapTypeDefault (t : Option TName) : Option Int :=
  fieldTypeMap (t.getD TName.tstring)

/-- The `value if value is not None else {}` / dict-items step of the
MAP branch (converter.py lines 302-313). -/
def mapEntriesOf (value : DocValue) :
    Except String (List (DocValue × DocValue)) :=
  match value with
  | .vnone => .ok []
  | .vdict l => .ok (l.map (fun p => (DocValue.vstr p.1, p.2)))
  | v => if pyTruthy v then .error "unmodelled map entries" else .ok []

/-- The key/value wire-tag lookup of the MAP branch: a `None` result of
`FIELD_TYPE_MAP.get` makes the subsequent `writeByte(None)` raise. -/
def mapTagOf (t : Option TName) : Except String Int :=
  match mapTypeDefault t with
  | some k => .ok k
  | none => .error "cannot pack None"

/-- The element-tag computation of the LIST branch (converter.py lines
354-373): explicit `element_type` via `FIELD_TYPE_MAP` (`KeyError`
modelled as the unsupported-type error), otherwise inference from the
items. -/
def listTagOf (field : DocField) : Except String Int :=
  match field.element_type with
  | none => (pyItems field.value).bind fun items =>
      .ok (inferListElementType items)
  | some name =>
    match fieldTypeMap name with
    | some e => .ok e
    | none => .error "Unsupported list element type"

/-- `FIELD_TYPE_MAP[ftype_str]` of `write_struct` (converter.py line
450): an unknown name raises `KeyError`. -/
def fieldTagOf (tn : TName) : Except String Int :=
  match fieldTypeMap tn with
  | some t => .ok t
  | none => .error "KeyError"

mutual
/-- `write_field_value` (converter.py lines 395-425). -/
def write_field_value (fuel : Nat) (t : Int) (v : DocValue) :
    Except String (List Nat) :=
  match fuel with
  | 0 => .error "recursion limit"
  | f + 1 =>
    if t = TBOOL then .ok (writeBool (pyTruthy v))
    else if t = TBYTE then do
      let n ← pyInt v
      writeByte n
    else if t = TI16 then do
      let n ← pyInt v
      writeI16 n
    else if t = TI32 then do
      let n ← pyInt v
      writeI32 n
    else if t = TI64 then do
      let n ← pyInt v
      writeI64 n
    else if t = TDOUBLE then do
      let bits ← pyFloatBits v
      .ok (writeDouble bits)
    else if t = TSTRING then
      match v with
      | .vnone => writeString []
      | .vstr s => writeString s
      | other => do
        let s ← pyStr other
        writeString s
    else if t = TSTRUCT then do
      let b ← pyContainsFields v
      if b then
        match v with
        | .vstruct fs => write_struct f fs
        | _ => .error "unmodelled fields subscript"
      else .ok [0]
    else .error "Unsupported simple thrift type"

/-- `write_value` (converter.py lines 254-392): the scalar branches
inline, each container branch split into its own function below (a
transparent regrouping of the Python `elif` branches). -/
def write_value (fuel : Nat) (t : Int) (field : DocField) :
    Except String (List Nat) :=
  match fuel with
  | 0 => .error "recursion limit"
  | f + 1 =>
    let value := field.value
    if t = TBOOL then
      -- bool(value) if value is not None else False
      .ok (writeBool (if value.isNone then false else pyTruthy value))
    else if t = TBYTE then
      if value.isNone then writeByte 0
      else do
        let n ← pyInt value
        writeByte n
    else if t = TI16 then
      if value.isNone then writeI16 0
      else do
        let n ← pyInt value
        writeI16 n
    else if t = TI32 then
      if value.isNone then writeI32 0
      else do
        let n ← pyInt value
        writeI32 n
    else if t = TI64 then
      if value.isNone then writeI64 0
      else do
        let n ← pyInt value
        writeI64 n
    else if t = TDOUBLE then
      if value.isNone then .ok (writeDouble 0)
      else do
        let bits ← pyFloatBits value
        .ok (writeDouble bits)
    else if t = TSTRING then
      match value with
      | .vnone => writeString []
      | .vstr s => writeString s
      | other => do
        let s ← pyStr other
        writeString s
    else if t = TSTRUCT then write_value_struct f field
    else if t = TMAP then write_value_map f field
    else if t = TSET then write_value_set f field
    else if t = TLIST then write_value_list f field
    else .error "Unsupported thrift type"

/-- The STRUCT branch of `write_value` (converter.py lines 277-286):
`if value is None or not value:` writes an empty struct. -/
def write_value_struct (fuel : Nat) (field : DocField) :
    Except String (List Nat) :=
  match fuel with
  | 0 => .error "recursion limit"
  | f + 1 =>
    let value := field.value
    if ¬pyTruthy value then .ok [0]
    else
      match value with
      | .vstruct fs => write_struct f fs
      | .vdict l =>
        -- value.get("fields", []) on a non-struct dict
        if l.any (fun p => p.1 = asciiFields) then
          .error "unmodelled fields lookup"
        else write_struct f []
      | _ => .error "object has no attribute get"

/-- The MAP branch of `write_value` (converter.py lines 287-327). -/
def write_value_map (fuel : Nat) (field : DocField) :
    Except String (List Nat) :=
  match fuel with
  | 0 => .error "recursion limit"
  | f + 1 => do
    let entries ← mapEntriesOf field.value
    -- writeMapBegin(key_type, value_type, len(entries))
    let kt ← mapTagOf field.key_type
    let vt ← mapTagOf field.value_type
    let sizeB ← writeI32 entries.length
    let body ← write_map_entries f kt vt entries
    .ok ((kt.emod 256).toNat :: (vt.emod 256).toNat :: sizeB ++ body)

/-- The SET branch of `write_value` (converter.py lines 328-349). -/
def write_value_set (fuel : Nat) (field : DocField) :
    Except String (List Nat) :=
  match fuel with
  | 0 => .error "recursion limit"
  | f + 1 => do
    let items ← pyItems field.value
    let et := inferSetElementType items
    let sizeB ← writeI32 items.length
    let body ←
      if et = TSTRUCT then write_struct_items f items
      else write_plain_items f et items
    .ok ((et.emod 256).toNat :: sizeB ++ body)

/-- The LIST branch of `write_value` (converter.py lines 350-390). -/
def write_value_list (fuel : Nat) (field : DocField) :
    Except String (List Nat) :=
  match fuel with
  | 0 => .error "recursion limit"
  | f + 1 => do
    let et ← listTagOf field
    let items ← pyItems field.value
    let sizeB ← writeI32 items.length
    let body ←
      if et = TSTRUCT then write_struct_items f items
      else write_plain_items f et items
    .ok ((et.emod 256).toNat :: sizeB ++ body)

/-- The per-entry loop of the MAP branch (converter.py lines 315-324);
every entry built from a dict has both keys. -/
def write_map_entries (fuel : Nat) (kt vt : Int)
    (entries : List (DocValue × DocValue)) : Except String (List Nat) :=
  match fuel with
  | 0 => .error "recursion limit"
  | f + 1 =>
    match entries with
    | [] => .ok []
    | (k, v) :: rest => do
      let kb ← write_field_value f kt k
      let vb ← write_field_value f vt v
      let tail ← write_map_entries f kt vt rest
      .ok (kb ++ vb ++ tail)

/-- The struct-element loops of the SET/LIST branches (converter.py
lines 343-348 and 381-387): a `{"fields": ...}` dict is written as a
struct, anything else falls back to `write_field_value` with tag
Struct. -/
def write_struct_items (fuel : Nat) (items : List DocValue) :
    Except String (List Nat) :=
  match fuel with
  | 0 => .error "recursion limit"
  | f + 1 =>
    match items with
    | [] => .ok []
    | item :: rest => do
      let b ←
        match item with
        | .vstruct fs => write_struct f fs
        | other => write_field_value f TSTRUCT other
      let tail ← write_struct_items f rest
      .ok (b ++ tail)

/-- The scalar-element loops of the SET/LIST branches (converter.py
lines 337-338 and 389). -/
def write_plain_items (fuel : Nat) (et : Int) (items : List DocValue) :
    Except String (List Nat) :=
  match fuel with
  | 0 => .error "recursion limit"
  | f + 1 =>
    match items with
    | [] => .ok []
    | item :: rest => do
      let b ← write_field_value f et item
      let tail ← write_plain_items f et rest
      .ok (b ++ tail)

/-- `write_struct` (converter.py lines 445-460): the field headers and
values followed by the Stop byte. -/
def write_struct (fuel : Nat) (fields : List DocField) :
    Except String (List Nat) :=
  match fuel with
  | 0 => .error "recursion limit"
  | f + 1 => do
    let body ← write_fields f fields
    .ok (body ++ [0])

/-- The field loop of `write_struct` (converter.py lines 447-458):
`FIELD_TYPE_MAP[ftype_str]` raises `KeyError` on an unknown name;
`writeFieldBegin` is the type byte and the i16 id. -/
def write_fields (fuel : Nat) (fields : List DocField) :
    Except String (List Nat) :=
  match fuel with
  | 0 => .error "recursion limit"
  | f + 1 =>
    match fields with
    | [] => .ok []
    | fd :: rest => do
      let ft ← fieldTagOf fd.field_type
      let tb ← writeByte ft
      let idb ← writeI16 fd.field_id
      let vb ← write_value f ft fd
      let tail ← write_fields f rest
      .ok (tb ++ idb ++ vb ++ tail)
end

/-- The `"thrift"` object consumed by `write_thrift_message`
(converter.py lines 462-465): `method`, `type`, `seqid`, `args`. -/
structure ThriftJson where
  method : List Nat
  typ : List Nat
  seqid : Int
  args : DocValue

/-- `msg_type_map` (converter.py lines 467-472); an unknown name makes
the subscript raise `KeyError`. -/
def msgTypeMap (t : List Nat) : Option Int :=
  if t = asciiCall then some 1
  else if t = asciiReply then some 2
  else if t = asciiException then some 3
  else if t = asciiOneway then some 4
  else none

/-- `msg_type_map[...]` of `write_thrift_message` (converter.py line
473). -/
def msgTagOf (t : List Nat) : Except String Int :=
  match msgTypeMap t with
  | some m => .ok m
  | none => .error "KeyError"

/-- `write_thrift_message` (converter.py lines 462-488) for the default
`TBinaryProtocol` (the `--compact` flag selects an out-of-scope
alternative wire format).  `writeMessageBegin` with `strict_write` is
the version word `80 01 00 <type>`, the method string and the i32
sequence id; the body struct is written only when `thrift_json["args"]`
is truthy. -/
def write_thrift_message (fuel : Nat) (tj : ThriftJson) :
    Except String (List Nat) := do
  let mt ← msgTagOf tj.typ
  let nameB ← writeString tj.method
  let seqB ← writeI32 tj.seqid
  let body ←
    if pyTruthy tj.args then
      match tj.args with
      | .vstruct fs => write_struct fuel fs
      | _ => .error "unmodelled args subscript"
    else Except.ok []
  .ok ([0x80, 0x01, 0x00, (mt.emod 256).toNat] ++ nameB ++ seqB ++ body)

/-! ## Fuel measures for the round trip (C1)

`measureV v` bounds the fuel the encoder and the decoder need on a
document value `v`: four units per node (enough for every dispatch
level of the mutual blocks) plus the measure of the children. -/

mutual
def measureV : DocValue → Nat
  | .vnone => 4
  | .vbool _ => 4
  | .vint _ => 4
  | .vfloat _ => 4
  | .vstr _ => 4
  | .vstruct fs => 4 + measureF fs
  | .varr xs => 4 + measureL xs
  | .vdict l => 4 + measureE l

def measureFd : DocField → Nat
  | .mk _ _ _ _ _ v => 4 + measureV v

def measureF : List DocField → Nat
  | [] => 1
  | fd :: rest => measureFd fd + measureF rest

def measureL : List DocValue → Nat
  | [] => 1
  | x :: rest => measureV x + measureL rest

def measureE : List (List Nat × DocValue) → Nat
  | [] => 1
  | (_, v) :: rest => 2 + measureV v + measureE rest
end

/-! ## Round-trip statements for the mutual induction -/

/-- The struct-body round trip: `write_fields` output followed by the
Stop byte parses back to the same field list. -/
def RTFields (fs : List DocField) : Prop :=
  ∃ bs, (∀ fuel, measureF fs ≤ fuel → write_fields fuel fs = .ok bs) ∧
    ∀ fuel extra, measureF fs ≤ fuel →
      readStructFields fuel (bs ++ (0 :: extra)) = .ok (fs, extra)

/-- The single-value round trip at the wire tag of the declared type. -/
def RTValue (tn : TName) (v : DocValue) : Prop :=
  ∃ ft bs, fieldTypeMap tn = some ft ∧ typeNameOf ft = tn ∧
    (∀ fid fuel, measureV v ≤ fuel →
      write_value fuel ft (.mk fid tn none none none v) = .ok bs) ∧
    ∀ fuel extra, measureV v ≤ fuel →
      decodeValue fuel ft (bs ++ extra) = .ok (v, extra)

/-- The struct-element-list round trip of the SET/LIST branches. -/
def RTStructItems (items : List DocValue) : Prop :=
  ∃ bs,
    (∀ fuel, measureL items ≤ fuel →
      write_struct_items fuel items = .ok bs) ∧
    ∀ fuel extra, measureL items ≤ fuel →
      readItems fuel TSTRUCT items.length (bs ++ extra) = .ok (items, extra)

/-- The map-entry round trip under the default string key/value tags. -/
def RTEntries (entries : List (List Nat × DocValue)) : Prop :=
  ∃ bs,
    (∀ fuel, measureE entries ≤ fuel →
      write_map_entries fuel TSTRING TSTRING
        (entries.map fun p => (DocValue.vstr p.1, p.2)) = .ok bs) ∧
    ∀ fuel i acc extra, measureE entries ≤ fuel →
      (∀ p ∈ acc, ∀ q ∈ entries, ¬p.1 = q.1) →
      readMapEntries fuel TSTRING TSTRING entries.length i acc
        (bs ++ extra) = .ok (acc ++ entries, extra)

/-! ## Helper lemmas about the byte primitives -/

lemma except_ok_bind {ε α β : Type} (x : α) (f : α → Except ε β) :
    (Except.ok (ε := ε) x >>= f) = f x := rfl

lemma except_error_bind {ε α β : Type} (e : ε) (f : α → Except ε β) :
    (Except.error (α := α) e >>= f) = .error e := rfl

lemma beBytes_length (w n : Nat) : (beBytes w n).length = w := by
  induction w generalizing n with
  | zero => simp [beBytes]
  | succ v ih => simp [beBytes, ih]

lemma beVal_append_byte (xs : List Nat) (b : Nat) :
    beVal (xs ++ [b]) = beVal xs * 256 + b := by
  simp [beVal, List.foldl_append]

lemma beVal_beBytes (w n : Nat) (h : n < 256 ^ w) :
    beVal (beBytes w n) = n := by
  induction w generalizing n with
  | zero =>
    simp only [pow_zero, Nat.lt_one_iff] at h
    simp [beBytes, beVal, h]
  | succ v ih =>
    have hdiv : n / 256 < 256 ^ v := by
      have h2 : (256 : Nat) ^ (v + 1) = 256 * 256 ^ v := by ring
      exact Nat.div_lt_of_lt_mul (by rw [← h2]; exact h)
    calc beVal (beBytes (v + 1) n)
        = beVal (beBytes v (n / 256) ++ [n % 256]) := rfl
      _ = beVal (beBytes v (n / 256)) * 256 + n % 256 := beVal_append_byte _ _
      _ = n / 256 * 256 + n % 256 := by rw [ih _ hdiv]
      _ = n := by omega

lemma u32at_append (pre rest : List Nat) (n : Nat) (h : n < 2 ^ 32) :
    u32at (pre ++ (beBytes 4 n ++ rest)) pre.length = .ok n := by
  have h4 : (beBytes 4 n).length = 4 := beBytes_length 4 n
  unfold u32at
  rw [if_pos (by simp [h4])]
  rw [List.drop_left, List.take_left' h4,
    beVal_beBytes 4 n (by norm_num; omega)]

/-! ## Lemmas about the header block codec -/

lemma encodeHeaders_foldl (ps : List (List Nat × List Nat)) (acc : List Nat) :
    ps.foldl (fun a p =>
      a ++ beBytes 4 p.1.length ++ p.1 ++ beBytes 4 p.2.length ++ p.2) acc =
    acc ++ encodeHeaders ps := by
  induction ps generalizing acc with
  | nil => simp [encodeHeaders]
  | cons p rest ih =>
    show List.foldl _ _ _ = _ ++ List.foldl _ [] _
    rw [List.foldl_cons]
    conv_rhs => rw [List.foldl_cons]
    rw [ih]
    conv_rhs => rw [ih]
    simp [List.append_assoc]

lemma encodeHeaders_cons (k v : List Nat) (rest : List (List Nat × List Nat)) :
    encodeHeaders ((k, v) :: rest) =
      beBytes 4 k.length ++ (k ++ (beBytes 4 v.length ++
        (v ++ encodeHeaders rest))) := by
  show List.foldl _ _ _ = _
  rw [List.foldl_cons, encodeHeaders_foldl]
  simp [List.append_assoc]

lemma encodeHeaders_length_ge (ps : List (List Nat × List Nat))
    (h : ps ≠ []) : 8 ≤ (encodeHeaders ps).length := by
  match ps with
  | (k, v) :: rest =>
    rw [encodeHeaders_cons]
    simp [beBytes_length]
    omega

lemma encodeHeaders_count_le (ps : List (List Nat × List Nat)) :
    ps.length * 8 ≤ (encodeHeaders ps).length := by
  induction ps with
  | nil => simp [encodeHeaders]
  | cons p rest ih =>
    obtain ⟨k, v⟩ := p
    rw [encodeHeaders_cons]
    simp only [List.length_cons, List.length_append, beBytes_length]
    omega

lemma foldl_pyInsert_distinct :
    ∀ (ps acc : List (List Nat × List Nat)),
      (ps.map Prod.fst).Nodup →
      (∀ p ∈ ps, ∀ q ∈ acc, q.1 ≠ p.1) →
      ps.foldl (fun a p => pyInsert a p.1 p.2) acc = acc ++ ps := by
  intro ps
  induction ps with
  | nil => intro acc _ _; simp
  | cons p rest ih =>
    intro acc hnodup hdisj
    obtain ⟨k, v⟩ := p
    have hnot : acc.any (fun q => q.1 = k) = false := by
      rw [List.any_eq_false]
      intro q hq
      simp only [decide_eq_true_eq]
      exact hdisj (k, v) (by simp) q hq
    have hins : pyInsert acc k v = acc ++ [(k, v)] := by
      simp [pyInsert, hnot]
    rw [List.foldl_cons]
    simp only at hins
    rw [hins, ih (acc ++ [(k, v)]) (by simpa using hnodup.of_cons)]
    · simp
    · intro p hp q hq
      rcases List.mem_append.mp hq with hq1 | hq2
      · exact hdisj p (by simp [hp]) q hq1
      · simp only [List.mem_singleton] at hq2
        subst hq2
        simp only [List.map_cons, List.nodup_cons] at hnodup
        intro hcontra
        have hk2 : k = p.1 := hcontra
        exact hnodup.1 (by rw [hk2]; exact List.mem_map_of_mem Prod.fst hp)

lemma parseHeaderPairs_encodeHeaders :
    ∀ (ps : List (List Nat × List Nat)) (pre : List Nat)
      (acc : List (List Nat × List Nat)) (L fuel : Nat),
      9 ≤ pre.length →
      pre.length + (encodeHeaders ps).length = 9 + L →
      ps.length < fuel →
      (∀ p ∈ ps, p.1.length < 2 ^ 32 ∧ p.2.length < 2 ^ 32) →
      (∀ p, ps.getLast? = some p → 2 ≤ p.1.length + p.2.length) →
      parseHeaderPairs (pre ++ encodeHeaders ps) L fuel pre.length acc =
        .ok (ps.foldl (fun a p => pyInsert a p.1 p.2) acc) := by
  intro ps
  induction ps with
  | nil =>
    intro pre acc L fuel h9 hlen hfuel _ _
    have hE : encodeHeaders ([] : List (List Nat × List Nat)) = [] := rfl
    rw [hE, List.append_nil]
    rw [hE] at hlen
    simp only [List.length_nil, Nat.add_zero] at hlen
    cases fuel with
    | zero => omega
    | succ f =>
      rw [parseHeaderPairs, if_neg (by omega)]
      simp
  | cons p rest ih =>
    intro pre acc L fuel h9 hlen hfuel hbounds hlast
    obtain ⟨k, v⟩ := p
    cases fuel with
    | zero => simp at hfuel
    | succ f =>
      have hk : k.length < 2 ^ 32 := (hbounds (k, v) (by simp)).1
      have hv : v.length < 2 ^ 32 := (hbounds (k, v) (by simp)).2
      rw [encodeHeaders_cons] at hlen ⊢
      simp only [List.length_append, beBytes_length] at hlen
      have hguard : pre.length < L := by
        rcases rest with _ | ⟨q, rest2⟩
        · have h2 := hlast (k, v) (by simp)
          simp only [encodeHeaders, List.foldl_nil, List.length_nil] at hlen
          simp only at h2
          omega
        · have h8 : 8 ≤ (encodeHeaders (q :: rest2)).length :=
            encodeHeaders_length_ge _ (by simp)
          omega
      have hu1 : u32at (pre ++ (beBytes 4 k.length ++ (k ++ (beBytes 4 v.length
          ++ (v ++ encodeHeaders rest))))) pre.length = .ok k.length :=
        u32at_append pre _ k.length hk
      have hkey : (((pre ++ (beBytes 4 k.length ++ (k ++ (beBytes 4 v.length
          ++ (v ++ encodeHeaders rest))))).drop (pre.length + 4)).take k.length)
          = k := by
        have hre : pre ++ (beBytes 4 k.length ++ (k ++ (beBytes 4 v.length
            ++ (v ++ encodeHeaders rest)))) =
            (pre ++ beBytes 4 k.length) ++ (k ++ (beBytes 4 v.length
            ++ (v ++ encodeHeaders rest))) := by
          simp [List.append_assoc]
        rw [hre, List.drop_left' (by simp [beBytes_length]), List.take_left]
      have hu2 : u32at (pre ++ (beBytes 4 k.length ++ (k ++ (beBytes 4 v.length
          ++ (v ++ encodeHeaders rest))))) (pre.length + 4 + k.length)
          = .ok v.length := by
        have hre : pre ++ (beBytes 4 k.length ++ (k ++ (beBytes 4 v.length
            ++ (v ++ encodeHeaders rest)))) =
            ((pre ++ beBytes 4 k.length) ++ k) ++ (beBytes 4 v.length
            ++ (v ++ encodeHeaders rest)) := by
          simp [List.append_assoc]
        have hlen2 : ((pre ++ beBytes 4 k.length) ++ k).length =
            pre.length + 4 + k.length := by
          simp [beBytes_length]
          try omega
        rw [hre, ← hlen2]
        exact u32at_append _ _ v.length hv
      have hval : (((pre ++ (beBytes 4 k.length ++ (k ++ (beBytes 4 v.length
          ++ (v ++ encodeHeaders rest))))).drop
            (pre.length + 4 + k.length + 4)).take v.length) = v := by
        have hre : pre ++ (beBytes 4 k.length ++ (k ++ (beBytes 4 v.length
            ++ (v ++ encodeHeaders rest)))) =
            (((pre ++ beBytes 4 k.length) ++ k) ++ beBytes 4 v.length) ++
            (v ++ encodeHeaders rest) := by
          simp [List.append_assoc]
        have hl : ((((pre ++ beBytes 4 k.length) ++ k) ++
            beBytes 4 v.length)).length = pre.length + 4 + k.length + 4 := by
          simp only [List.length_append, beBytes_length]
          try omega
        rw [hre, List.drop_left' hl, List.take_left]
      rw [parseHeaderPairs, if_pos hguard, hu1]
      simp only [hu2, hkey, hval]
      have hre2 : pre ++ (beBytes 4 k.length ++ (k ++ (beBytes 4 v.length
          ++ (v ++ encodeHeaders rest)))) =
          ((((pre ++ beBytes 4 k.length) ++ k) ++ beBytes 4 v.length) ++ v)
          ++ encodeHeaders rest := by
        simp [List.append_assoc]
      have hofs : pre.length + 4 + k.length + 4 + v.length =
          (((((pre ++ beBytes 4 k.length) ++ k) ++ beBytes 4 v.length) ++ v)).length := by
        simp only [List.length_append, beBytes_length]
        try omega
      rw [hre2, hofs,
        ih _ (pyInsert acc k v) L f (by simp [beBytes_length]; omega)
          (by simp [beBytes_length]; omega)
          (by simp at hfuel ⊢; omega)
          (fun q hq => hbounds q (by simp [hq]))
          (fun q hq => by
            rcases rest with _ | ⟨r, rest2⟩
            · simp at hq
            · exact hlast q (by rw [List.getLast?_cons_cons]; exact hq))]
      simp [List.foldl_cons]

/-- C2: when the structural Frugal interpretation is accepted
(`len(data) > 9`, `0 < frameSize < len(data)`, `version ∈ {0,1}`,
`headerLength < frameSize`), `parse_data` returns the split
`(data[0 : 9+headerLength], data[9+headerLength :])` without consulting
the marker heuristics. -/
theorem C2_structural_attempt (data : List Nat)
    (hlen : 9 < data.length)
    (hfs1 : 0 < beVal (data.take 4))
    (hfs2 : beVal (data.take 4) < data.length)
    (hver : data.getD 4 0 ≤ 1)
    (hhl : beVal ((data.drop 5).take 4) < beVal (data.take 4)) :
    parse_data defaultMarkers data =
      .ok (data.take (9 + beVal ((data.drop 5).take 4)),
           data.drop (9 + beVal ((data.drop 5).take 4))) := by
  unfold parse_data structuralSplit
  rw [if_pos hlen]
  simp only
  rw [if_pos ⟨hfs1, hfs2, hver, hhl⟩]

/-- Witness for C2 at a concrete buffer. -/
theorem C2_structural_attempt_witness :
    parse_data defaultMarkers [0, 0, 0, 11, 0, 0, 0, 0, 1, 99, 88, 77] =
      .ok ([0, 0, 0, 11, 0, 0, 0, 0, 1, 99], [88, 77]) := by
  rw [C2_structural_attempt [0, 0, 0, 11, 0, 0, 0, 0, 1, 99, 88, 77]
    (by decide) (by decide) (by decide) (by decide) (by decide)]
  rfl

/-- C5 (amended): header encoding appends, for each pair in the order
supplied, a 4-byte big-endian key length, the key bytes, a 4-byte
big-endian value length and the value bytes; decoding the block behind
the 9-byte metadata prefix (with `headerLength` equal to the block's
byte length) reproduces the mapping, provided the final pair has
combined key plus value length at least two (the parse loop compares
the running offset against `header_length` instead of
`9 + header_length`, so a trailing pair of at most 9 encoded bytes is
silently dropped). -/
theorem C5_header_encode_roundtrip
    (pairs : List (List Nat × List Nat)) (b0 b1 b2 b3 ver : Nat)
    (hkeys : (pairs.map Prod.fst).Nodup)
    (hbounds : ∀ p ∈ pairs, p.1.length < 2 ^ 32 ∧ p.2.length < 2 ^ 32)
    (hlast : ∀ p, pairs.getLast? = some p → 2 ≤ p.1.length + p.2.length)
    (hL : (encodeHeaders pairs).length < 2 ^ 32) :
    decode_headers ([b0, b1, b2, b3, ver] ++
        beBytes 4 (encodeHeaders pairs).length ++ encodeHeaders pairs) =
      .ok ⟨beVal [b0, b1, b2, b3], ver, (encodeHeaders pairs).length,
        pairs⟩ := by
  have hpre : ([b0, b1, b2, b3, ver] ++
      beBytes 4 (encodeHeaders pairs).length).length = 9 := by
    simp [beBytes_length]
  have hbuflen : (([b0, b1, b2, b3, ver] ++
      beBytes 4 (encodeHeaders pairs).length) ++
      encodeHeaders pairs).length = 9 + (encodeHeaders pairs).length := by
    simp [beBytes_length]
    try omega
  have h1 : u32at (([b0, b1, b2, b3, ver] ++
      beBytes 4 (encodeHeaders pairs).length) ++ encodeHeaders pairs) 0 =
      .ok (beVal [b0, b1, b2, b3]) := by
    unfold u32at
    rw [if_pos (by omega)]
    simp [List.take]
  have h2 : (([b0, b1, b2, b3, ver] ++
      beBytes 4 (encodeHeaders pairs).length) ++
      encodeHeaders pairs).getD 4 0 = ver := by
    simp [List.getD]
  have h3 : u32at (([b0, b1, b2, b3, ver] ++
      beBytes 4 (encodeHeaders pairs).length) ++ encodeHeaders pairs) 5 =
      .ok (encodeHeaders pairs).length := by
    unfold u32at
    rw [if_pos (by omega)]
    have hdrop : ((([b0, b1, b2, b3, ver] ++
        beBytes 4 (encodeHeaders pairs).length) ++
        encodeHeaders pairs)).drop 5 =
        beBytes 4 (encodeHeaders pairs).length ++ encodeHeaders pairs := by
      simp [List.drop]
    rw [hdrop, List.take_left' (beBytes_length 4 _), beVal_beBytes _ _
      (by norm_num; omega)]
  have h4 : parseHeaderPairs (([b0, b1, b2, b3, ver] ++
      beBytes 4 (encodeHeaders pairs).length) ++ encodeHeaders pairs)
      (encodeHeaders pairs).length ((encodeHeaders pairs).length + 1) 9 [] =
      .ok pairs := by
    have hcount := encodeHeaders_count_le pairs
    have happ := parseHeaderPairs_encodeHeaders pairs
      ([b0, b1, b2, b3, ver] ++ beBytes 4 (encodeHeaders pairs).length) []
      (encodeHeaders pairs).length ((encodeHeaders pairs).length + 1)
      (by omega) (by omega) (by omega) hbounds hlast
    rw [hpre] at happ
    rw [happ, foldl_pyInsert_distinct pairs [] hkeys (by simp)]
    simp
  have h5 : 5 ≤ (([b0, b1, b2, b3, ver] ++
      beBytes 4 (encodeHeaders pairs).length) ++
      encodeHeaders pairs).length := by omega
  show decode_headers (([b0, b1, b2, b3, ver] ++
      beBytes 4 (encodeHeaders pairs).length) ++ encodeHeaders pairs) = _
  unfold decode_headers
  simp only [List.cons_append, List.nil_append] at h1 h2 h3 h4 h5 ⊢
  simp only [h1, h2, h3, h5, except_ok_bind]
  rw [h4]
  simp [except_ok_bind]

/-- Witness for C5 at Scenario A (with the correct key length `0x0A`):
the pair `("user-agent", "test")` and its decode. -/
theorem C5_header_encode_roundtrip_witness :
    encodeHeaders [(asciiUserAgent, asciiTest)] =
      [0, 0, 0, 10] ++ asciiUserAgent ++ [0, 0, 0, 4] ++ asciiTest ∧
    decode_headers ([0, 0, 0, 0, 0] ++ beBytes 4 22 ++
        encodeHeaders [(asciiUserAgent, asciiTest)]) =
      .ok ⟨0, 0, 22, [(asciiUserAgent, asciiTest)]⟩ := by
  refine ⟨rfl, ?_⟩
  have h := C5_header_encode_roundtrip [(asciiUserAgent, asciiTest)]
    0 0 0 0 0 (by decide) (by decide) (by decide) (by decide)
  exact h

/-- Counterexample for C5 as frozen: the key length of `"user-agent"`
is ten (`0x0A`), not the nine the claim states; and the pair
`("", "a")` (combined length one) encodes to a nine-byte block whose
decode yields the empty mapping, so decode-after-encode is not the
identity on every mapping. -/
theorem C5_counterexample :
    encodeHeaders [(asciiUserAgent, asciiTest)] ≠
      [0, 0, 0, 9] ++ asciiUserAgent ++ [0, 0, 0, 4] ++ asciiTest ∧
    (decode_headers ([0, 0, 0, 0, 0] ++
        beBytes 4 (encodeHeaders [([], [97])]).length ++
        encodeHeaders [([], [97])])).map HeadersDoc.headers =
      .ok [] ∧
    ([] : List (List Nat × List Nat)) ≠ [([], [97])] := by
  refine ⟨by decide, rfl, by decide⟩

/-- C8 (amended): a key-length field that would make the key read run
past the end of the buffer always fails the header parse (the
jumped-over offset leaves fewer than four bytes for the next value
length unpack); the same does not hold for a value-length field on the
final iterated pair, which is truncated silently. -/
theorem C8_keylen_overrun_fails (mb : List Nat) (L fuel offset : Nat)
    (acc : List (List Nat × List Nat)) (klen : Nat)
    (hoff : offset < L)
    (hread : u32at mb offset = .ok klen)
    (hover : mb.length < offset + 4 + klen) :
    parseHeaderPairs mb L (fuel + 1) offset acc =
      .error "unpack requires a buffer of 4 bytes" := by
  rw [parseHeaderPairs, if_pos hoff, hread]
  have h2 : u32at mb (offset + 4 + klen) =
      .error "unpack requires a buffer of 4 bytes" := by
    unfold u32at
    rw [if_neg (by omega)]
  simp only [h2]

/-- Witness for C8: a buffer whose first key length (`100`) overruns
the twenty-byte buffer; the parse fails. -/
theorem C8_keylen_overrun_fails_witness :
    parseHeaderPairs
      ([0, 0, 0, 0, 0, 0, 0, 0, 22] ++ [0, 0, 0, 100] ++ [107, 107, 107])
      22 23 9 [] = .error "unpack requires a buffer of 4 bytes" := by
  have h := C8_keylen_overrun_fails
    ([0, 0, 0, 0, 0, 0, 0, 0, 22] ++ [0, 0, 0, 100] ++ [107, 107, 107])
    22 22 9 [] 100 (by decide) (by rfl) (by decide)
  exact h

/-- Counterexample for C8 as frozen: a header block whose value length
field (`5`) runs three bytes past the buffer end, yet `decode_headers`
returns a mapping (with the value silently truncated to the two
remaining bytes) instead of failing. -/
theorem C8_counterexample :
    (([0, 0, 0, 0, 0] ++ beBytes 4 22 ++
        [0, 0, 0, 1, 107, 0, 0, 0, 5, 97, 98]).length = 20) ∧
    decode_headers ([0, 0, 0, 0, 0] ++ beBytes 4 22 ++
        [0, 0, 0, 1, 107, 0, 0, 0, 5, 97, 98]) =
      .ok ⟨0, 0, 22, [([107], [97, 98])]⟩ := by
  exact ⟨rfl, rfl⟩

/-- C7 (amended): element-type inference is per container kind.  Lists
with no `element_type`: nonempty all-scalar lists follow the
`isinstance` chain Bool, then I32 (Python `bool` counting as `int`),
then Double, then String; empty lists and lists with any non-scalar
element get Struct (not String).  Sets never consult declared or
inferred scalar kinds: every all-scalar set (including the empty set)
gets String, every other set gets Struct.  Maps perform no shape
inference at all: an absent key or value type defaults to String, as
the leading two wire bytes of the encoded map show. -/
theorem C7_inference_amended :
    (∀ items : List DocValue, items.isEmpty = false →
      items.all isScalarPy = true → items.all isInstBool = true →
      inferListElementType items = TBOOL) ∧
    (∀ items : List DocValue, items.isEmpty = false →
      items.all isScalarPy = true → items.all isInstBool = false →
      items.all isInstInt = true → inferListElementType items = TI32) ∧
    (∀ items : List DocValue, items.isEmpty = false →
      items.all isScalarPy = true → items.all isInstBool = false →
      items.all isInstInt = false → items.all isInstFloat = true →
      inferListElementType items = TDOUBLE) ∧
    (∀ items : List DocValue, items.isEmpty = false →
      items.all isScalarPy = true → items.all isInstBool = false →
      items.all isInstInt = false → items.all isInstFloat = false →
      inferListElementType items = TSTRING) ∧
    (inferListElementType [] = TSTRUCT) ∧
    (∀ items : List DocValue, items.all isScalarPy = false →
      inferListElementType items = TSTRUCT) ∧
    (∀ items : List DocValue, items.all isScalarPy = true →
      inferSetElementType items = TSTRING) ∧
    (∀ items : List DocValue, items.all isScalarPy = false →
      inferSetElementType items = TSTRUCT) ∧
    (mapTypeDefault none = some TSTRING ∧
      ∀ tn : TName, mapTypeDefault (some tn) = fieldTypeMap tn) := by
  refine ⟨?_, ?_, ?_, ?_, rfl, ?_, ?_, ?_, ?_⟩
  · intro items hne hs hb
    simp [inferListElementType, hne, hs, hb]
  · intro items hne hs hb hi
    simp [inferListElementType, hne, hs, hb, hi]
  · intro items hne hs hb hi hf
    simp [inferListElementType, hne, hs, hb, hi, hf]
  · intro items hne hs hb hi hf
    simp [inferListElementType, hne, hs, hb, hi, hf]
  · intro items hs
    simp [inferListElementType, hs]
  · intro items hs
    simp [inferSetElementType, hs]
  · intro items hs
    simp [inferSetElementType, hs]
  · exact ⟨rfl, fun tn => rfl⟩

/-- Witness for C7 (amended) at concrete containers of each shape. -/
theorem C7_inference_amended_witness :
    inferListElementType [DocValue.vbool false] = TBOOL ∧
    inferListElementType [DocValue.vint 5] = TI32 ∧
    inferListElementType [DocValue.vfloat 3] = TDOUBLE ∧
    inferListElementType [DocValue.vstr [97]] = TSTRING ∧
    inferListElementType [DocValue.vstruct []] = TSTRUCT ∧
    inferSetElementType [DocValue.vint 5] = TSTRING ∧
    inferSetElementType [DocValue.vstruct []] = TSTRUCT ∧
    mapTypeDefault none = some TSTRING := by
  exact ⟨C7_inference_amended.1 _ rfl rfl rfl,
    C7_inference_amended.2.1 _ rfl rfl rfl rfl,
    C7_inference_amended.2.2.1 _ rfl rfl rfl rfl rfl,
    C7_inference_amended.2.2.2.1 _ rfl rfl rfl rfl rfl,
    C7_inference_amended.2.2.2.2.2.1 _ rfl,
    C7_inference_amended.2.2.2.2.2.2.1 _ rfl,
    C7_inference_amended.2.2.2.2.2.2.2.1 _ rfl,
    C7_inference_amended.2.2.2.2.2.2.2.2.1⟩

/-- Counterexample for C7 as frozen: a set of a single boolean infers
String rather than Bool; an empty list infers Struct rather than
String; and the same all-boolean content infers Bool as a list but
String as a set, so the inference is not the same for every container
kind on equivalent input; a map with an integer value and no declared
types writes String (11) key and value types, not I32. -/
theorem C7_counterexample :
    inferSetElementType [DocValue.vbool true] = TSTRING ∧
    TSTRING ≠ TBOOL ∧
    inferListElementType [] = TSTRUCT ∧
    TSTRUCT ≠ TSTRING ∧
    inferListElementType [DocValue.vbool true] = TBOOL ∧
    inferSetElementType [DocValue.vbool true] ≠
      inferListElementType [DocValue.vbool true] ∧
    (write_value 10 TMAP (DocField.mk 1 .tmap none none none
      (.vdict [([49], DocValue.vint 2)]))).map (fun bs => bs.take 2) =
      .ok [11, 11] ∧ (11 : Nat) ≠ 8 :=
  ⟨rfl, by decide, rfl, by decide, rfl, by decide, rfl, by decide⟩

/-! ## Order lemmas for the marker scan -/

lemma bytesLt_irrefl (a : List Nat) : bytesLt a a = false := by
  induction a with
  | nil => rfl
  | cons x xs ih => simp [bytesLt, ih]

lemma bytesLt_trans : ∀ a b c : List Nat,
    bytesLt a b = true → bytesLt b c = true → bytesLt a c = true := by
  intro a
  induction a with
  | nil =>
    intro b c hab hbc
    cases b with
    | nil => simp [bytesLt] at hab
    | cons y ys =>
      cases c with
      | nil => simp [bytesLt] at hbc
      | cons z zs => simp [bytesLt]
  | cons x xs ih =>
    intro b c hab hbc
    cases b with
    | nil => simp [bytesLt] at hab
    | cons y ys =>
      cases c with
      | nil => simp [bytesLt] at hbc
      | cons z zs =>
        simp only [bytesLt] at hab hbc ⊢
        by_cases hxy : x < y
        · by_cases hyz : y < z
          · have hxz : x < z := by omega
            simp [hxz]
          · by_cases hzy : z < y
            · simp [hyz, hzy] at hbc
            · have hxz : x < z := by omega
              simp [hxz]
        · by_cases hyx : y < x
          · simp [hxy, hyx] at hab
          · by_cases hyz : y < z
            · have hxz : x < z := by omega
              simp [hxz]
            · by_cases hzy : z < y
              · simp [hyz, hzy] at hbc
              · have hxz : ¬ x < z := by omega
                have hzx : ¬ z < x := by omega
                rw [if_neg hxy, if_neg hyx] at hab
                rw [if_neg hyz, if_neg hzy] at hbc
                rw [if_neg hxz, if_neg hzx]
                exact ih ys zs hab hbc

lemma bytesLt_total : ∀ a b : List Nat,
    a = b ∨ bytesLt a b = true ∨ bytesLt b a = true := by
  intro a
  induction a with
  | nil =>
    intro b
    cases b with
    | nil => exact Or.inl rfl
    | cons y ys => exact Or.inr (Or.inl (by simp [bytesLt]))
  | cons x xs ih =>
    intro b
    cases b with
    | nil => exact Or.inr (Or.inr (by simp [bytesLt]))
    | cons y ys =>
      rcases Nat.lt_trichotomy x y with hxy | hxy | hxy
      · exact Or.inr (Or.inl (by simp [bytesLt, hxy]))
      · subst hxy
        rcases ih ys with h | h | h
        · exact Or.inl (by rw [h])
        · exact Or.inr (Or.inl (by simp [bytesLt, h]))
        · exact Or.inr (Or.inr (by simp [bytesLt, h]))
      · have hnot : ¬ x < y := by omega
        exact Or.inr (Or.inr (by simp [bytesLt, hxy, hnot]))

lemma pairLt_irrefl (x : Nat × List Nat) : pairLt x x = false := by
  simp [pairLt, bytesLt_irrefl]

lemma pairLt_trans {x y z : Nat × List Nat}
    (h1 : pairLt x y = true) (h2 : pairLt y z = true) :
    pairLt x z = true := by
  simp only [pairLt, Bool.or_eq_true, Bool.and_eq_true, decide_eq_true_eq]
    at h1 h2 ⊢
  rcases h1 with h1 | ⟨h1e, h1b⟩ <;> rcases h2 with h2 | ⟨h2e, h2b⟩
  · exact Or.inl (by omega)
  · exact Or.inl (by omega)
  · exact Or.inl (by omega)
  · exact Or.inr ⟨by omega, bytesLt_trans _ _ _ h1b h2b⟩

lemma pairLt_total (x y : Nat × List Nat) :
    x = y ∨ pairLt x y = true ∨ pairLt y x = true := by
  obtain ⟨p1, m1⟩ := x
  obtain ⟨p2, m2⟩ := y
  rcases Nat.lt_trichotomy p1 p2 with hp | hp | hp
  · exact Or.inr (Or.inl (by simp [pairLt, hp]))
  · subst hp
    rcases bytesLt_total m1 m2 with h | h | h
    · exact Or.inl (by rw [h])
    · exact Or.inr (Or.inl (by simp [pairLt, h]))
    · exact Or.inr (Or.inr (by simp [pairLt, h]))
  · exact Or.inr (Or.inr (by simp [pairLt, hp]))

lemma minFold_spec (xs : List (Nat × List Nat)) (x : Nat × List Nat) :
    (xs.foldl (fun best y => if pairLt y best then y else best) x ∈ x :: xs) ∧
    (∀ y, y ∈ x :: xs →
      pairLt y (xs.foldl (fun best y => if pairLt y best then y else best) x)
        = false) := by
  induction xs generalizing x with
  | nil =>
    refine ⟨List.mem_cons_self x [], ?_⟩
    intro y hy
    simp only [List.mem_singleton] at hy
    subst hy
    exact pairLt_irrefl y
  | cons y0 ys ih =>
    simp only [List.foldl_cons]
    by_cases hc : pairLt y0 x = true
    · rw [if_pos hc]
      have step := ih y0
      constructor
      · exact List.mem_cons_of_mem _ step.1
      · intro z hz
        rcases List.mem_cons.mp hz with hzx | hz2
        · subst hzx
          by_contra hcon
          simp only [Bool.not_eq_false] at hcon
          have hy0 := step.2 y0 (List.mem_cons_self _ _)
          rw [pairLt_trans hc hcon] at hy0
          cases hy0
        · exact step.2 z hz2
    · rw [if_neg hc]
      have hc2 : pairLt y0 x = false := by
        cases hcv : pairLt y0 x
        · rfl
        · exact absurd hcv hc
      have step := ih x
      constructor
      · rcases List.mem_cons.mp step.1 with h | h
        · rw [h]
          exact List.mem_cons_self _ _
        · exact List.mem_cons_of_mem _ (List.mem_cons_of_mem _ h)
      · intro z hz
        rcases List.mem_cons.mp hz with hzx | hz2
        · subst hzx
          exact step.2 z (List.mem_cons_self _ _)
        · rcases List.mem_cons.mp hz2 with hzy | hzys
          · subst hzy
            by_contra hcon
            simp only [Bool.not_eq_false] at hcon
            have hx := step.2 x (List.mem_cons_self _ _)
            rcases pairLt_total x (ys.foldl
                (fun best y => if pairLt y best then y else best) x) with
              he | hlt | hgt
            · rw [← he] at hcon
              rw [hcon] at hc2
              cases hc2
            · rw [hlt] at hx
              cases hx
            · rw [pairLt_trans hcon hgt] at hc2
              cases hc2
          · exact step.2 z (List.mem_cons_of_mem _ hzys)

lemma minHit_mem (l : List (Nat × List Nat)) (x : Nat × List Nat)
    (h : minHit l = some x) : x ∈ l := by
  cases l with
  | nil => cases h
  | cons a as =>
    simp only [minHit, Option.some_inj] at h
    rw [← h]
    exact (minFold_spec as a).1

lemma minHit_min (l : List (Nat × List Nat)) (x : Nat × List Nat)
    (h : minHit l = some x) : ∀ y ∈ l, pairLt y x = false := by
  cases l with
  | nil => cases h
  | cons a as =>
    simp only [minHit, Option.some_inj] at h
    rw [← h]
    exact (minFold_spec as a).2

lemma findSub_none (pat : List Nat) : ∀ hay, findSub pat hay = none →
    ∀ i, pat.isPrefixOf (hay.drop i) = false := by
  intro hay
  induction hay with
  | nil =>
    intro h i
    rw [List.drop_nil]
    simp only [findSub] at h
    by_cases hp : pat.isPrefixOf ([] : List Nat) = true
    · rw [if_pos hp] at h
      cases h
    · cases hpv : pat.isPrefixOf ([] : List Nat)
      · rfl
      · exact absurd hpv hp
  | cons a t ih =>
    intro h i
    simp only [findSub] at h
    by_cases hp : pat.isPrefixOf (a :: t) = true
    · rw [if_pos hp] at h
      cases h
    · rw [if_neg hp] at h
      have ht : findSub pat t = none := by
        cases hft : findSub pat t
        · rfl
        · rw [hft] at h
          cases h
      cases i with
      | zero =>
        rw [List.drop_zero]
        cases hpv : pat.isPrefixOf (a :: t)
        · rfl
        · exact absurd hpv hp
      | succ j =>
        rw [List.drop_succ_cons]
        exact ih ht j

lemma findSub_some_prefix (pat : List Nat) : ∀ hay p,
    findSub pat hay = some p → pat.isPrefixOf (hay.drop p) = true := by
  intro hay
  induction hay with
  | nil =>
    intro p h
    simp only [findSub] at h
    by_cases hp : pat.isPrefixOf ([] : List Nat) = true
    · rw [if_pos hp] at h
      have h0 := Option.some.inj h
      subst h0
      rw [List.drop_nil]
      exact hp
    · rw [if_neg hp] at h
      cases h
  | cons a t ih =>
    intro p h
    simp only [findSub] at h
    by_cases hp : pat.isPrefixOf (a :: t) = true
    · rw [if_pos hp] at h
      have h0 := Option.some.inj h
      subst h0
      rw [List.drop_zero]
      exact hp
    · rw [if_neg hp] at h
      cases hft : findSub pat t with
      | none =>
        rw [hft] at h
        cases h
      | some q =>
        rw [hft] at h
        simp only [Option.map] at h
        have h0 := Option.some.inj h
        subst h0
        rw [List.drop_succ_cons]
        exact ih q hft

lemma markerHits_mem (ms : List (List Nat)) (data : List Nat)
    (p : Nat) (m : List Nat) :
    (p, m) ∈ markerHits ms data ↔ m ∈ ms ∧ findSub m data = some p := by
  unfold markerHits
  rw [List.mem_filterMap]
  constructor
  · rintro ⟨a, ha, hfa⟩
    cases hf : findSub a data with
    | none =>
      rw [hf] at hfa
      cases hfa
    | some q =>
      rw [hf] at hfa
      simp only [Option.map, Option.some_inj, Prod.mk.injEq] at hfa
      obtain ⟨hq, hm⟩ := hfa
      subst hm
      subst hq
      exact ⟨ha, hf⟩
  · rintro ⟨hm, hf⟩
    exact ⟨m, hm, by rw [hf]; rfl⟩

lemma markerHits_all_none (ms : List (List Nat)) (data : List Nat)
    (h : markerHits ms data = []) :
    ∀ m ∈ ms, findSub m data = none := by
  intro m hm
  cases hf : findSub m data with
  | none => rfl
  | some p =>
    exfalso
    have hmem : (p, m) ∈ markerHits ms data :=
      (markerHits_mem ms data p m).mpr ⟨hm, hf⟩
    rw [h] at hmem
    exact List.not_mem_nil _ hmem

lemma fallbackHits_empty (data : List Nat)
    (h1 : findSub [0x80, 0x01] data = none)
    (h2 : findSub [0x82, 0x21] data = none) :
    fallbackHits data = [] := by
  unfold fallbackHits
  rw [List.filterMap_eq_nil_iff]
  intro i hi
  rw [List.mem_range] at hi
  have hlen : i + 1 < data.length := by omega
  have hd : data.drop i = data.getD i 0 :: data.getD (i + 1) 0 ::
      data.drop (i + 2) := by
    rw [List.getD_eq_getElem _ _ (by omega), List.getD_eq_getElem _ _ hlen]
    rw [List.drop_eq_getElem_cons (by omega),
      List.drop_eq_getElem_cons (l := data) (n := i + 1) hlen]
  have hp1 := findSub_none _ _ h1 i
  have hp2 := findSub_none _ _ h2 i
  rw [hd] at hp1 hp2
  simp only [List.isPrefixOf, Bool.and_eq_false_iff, beq_eq_false_iff_ne,
    ne_eq] at hp1 hp2
  rw [if_neg]
  simp only [Bool.or_eq_true, Bool.and_eq_true, decide_eq_true_eq, not_or,
    not_and]
  constructor
  · intro ha hb
    rcases hp1 with hc | hc
    · exact hc ha.symm
    · rcases hc with hc | hc
      · exact hc hb.symm
      · simp [List.isPrefixOf] at hc
  · intro ha hb
    rcases hp2 with hc | hc
    · exact hc ha.symm
    · rcases hc with hc | hc
      · exact hc hb.symm
      · simp [List.isPrefixOf] at hc

/-- C9: with the default marker list, the byte-level fallback of
`parse_data` is dead code: whenever the marker scan finds no hit the
fallback (which only looks for `80 01` and `82 21`, both already
searched, over a strict subset of the window offsets) also finds
nothing, so `parse_data` behaves identically with or without it, and
when the scan fails it raises the frame-not-found error. -/
theorem C9_fallback_redundant :
    (∀ data, parse_data defaultMarkers data =
      parse_dataNoFallback defaultMarkers data) ∧
    (∀ data, structuralSplit data = none →
      markerHits defaultMarkers data = [] →
      parse_data defaultMarkers data =
        .error "No Thrift/Frugal marker found in the message") := by
  have hfb : ∀ data, markerHits defaultMarkers data = [] →
      fallbackHits data = [] := by
    intro data h
    have hall := markerHits_all_none defaultMarkers data h
    exact fallbackHits_empty data
      (hall [0x80, 0x01] (by simp [defaultMarkers]))
      (hall [0x82, 0x21] (by simp [defaultMarkers]))
  constructor
  · intro data
    unfold parse_data parse_dataNoFallback
    cases hs : structuralSplit data with
    | some split => rfl
    | none =>
      simp only
      by_cases hh : markerHits defaultMarkers data = []
      · rw [if_pos hh, hfb data hh, hh]
      · rw [if_neg hh]
  · intro data hs hh
    unfold parse_data
    rw [hs]
    simp only
    rw [if_pos hh, hfb data hh]
    rfl

/-- Witness for C9: a buffer with no marker occurrence raises the
frame-not-found error, and a buffer with marker hits splits the same
with or without the fallback. -/
theorem C9_fallback_redundant_witness :
    parse_data defaultMarkers [1, 2, 3] =
      .error "No Thrift/Frugal marker found in the message" ∧
    parse_data defaultMarkers [0, 0x80, 0x01, 5] =
      parse_dataNoFallback defaultMarkers [0, 0x80, 0x01, 5] := by
  exact ⟨C9_fallback_redundant.2 [1, 2, 3] rfl rfl,
    C9_fallback_redundant.1 [0, 0x80, 0x01, 5]⟩

/-- The tie-break structure of the default marker list: if an
earlier-listed marker and a later-listed marker can both match at the
same offset (one is a prefix of the other), the earlier-listed one is
also the lexicographically smaller, so Python's tuple sort on
`(pos, marker)` agrees with list priority at every tie. -/
lemma defaultMarkers_tie (m1 m2 : List Nat) (h1 : m1 ∈ defaultMarkers)
    (h2 : m2 ∈ defaultMarkers)
    (hidx : defaultMarkers.indexOf m1 < defaultMarkers.indexOf m2)
    (hcompat : m1 <+: m2 ∨ m2 <+: m1) :
    bytesLt m1 m2 = true := by
  simp only [defaultMarkers, List.mem_cons, List.not_mem_nil,
    or_false] at h1 h2
  rcases h1 with rfl | rfl | rfl | rfl | rfl | rfl <;>
    rcases h2 with rfl | rfl | rfl | rfl | rfl | rfl <;>
    revert hidx hcompat <;> decide

/-- C6: when the structural attempt is rejected and some configured
marker occurs in the buffer, `parse_data` splits at the hit with the
smallest byte offset (header is everything before it); and because the
sort is on `(pos, marker)` tuples, the marker selected at that offset
is the one appearing earliest in the configured list among those whose
first occurrence is that offset (for the default list, byte order and
list priority agree on every possible tie). -/
theorem C6_marker_scan (data : List Nat) (p : Nat) (m : List Nat)
    (hs : structuralSplit data = none)
    (hmin : minHit (markerHits defaultMarkers data) = some (p, m)) :
    parse_data defaultMarkers data = .ok (data.take p, data.drop p) ∧
    (∀ q mq, (q, mq) ∈ markerHits defaultMarkers data → p ≤ q) ∧
    m ∈ defaultMarkers ∧ findSub m data = some p ∧
    (∀ mq, mq ∈ defaultMarkers → findSub mq data = some p →
      defaultMarkers.indexOf m ≤ defaultMarkers.indexOf mq) := by
  have hmem := minHit_mem _ _ hmin
  have hmm := (markerHits_mem defaultMarkers data p m).mp hmem
  have hminh := minHit_min _ _ hmin
  have hne : markerHits defaultMarkers data ≠ [] := by
    intro hE
    rw [hE] at hmem
    exact List.not_mem_nil _ hmem
  refine ⟨?_, ?_, hmm.1, hmm.2, ?_⟩
  · unfold parse_data
    rw [hs]
    simp only
    rw [if_neg hne, hmin]
  · intro q mq hq
    have hle := hminh (q, mq) hq
    simp only [pairLt, Bool.or_eq_false_iff, Bool.and_eq_false_iff,
      decide_eq_false_iff_not] at hle
    omega
  · intro mq hmq hf
    by_contra hgt
    push_neg at hgt
    have hp1 := findSub_some_prefix m data p hmm.2
    have hp2 := findSub_some_prefix mq data p hf
    rw [List.isPrefixOf_iff_prefix] at hp1 hp2
    have hcompat := List.prefix_or_prefix_of_prefix hp2 hp1
    have hbl := defaultMarkers_tie mq m hmq hmm.1 hgt hcompat
    have hplt : pairLt (p, mq) (p, m) = true := by
      simp [pairLt, hbl]
    have hmemq : (p, mq) ∈ markerHits defaultMarkers data :=
      (markerHits_mem defaultMarkers data p mq).mpr ⟨hmq, hf⟩
    have := hminh (p, mq) hmemq
    rw [hplt] at this
    cases this

/-- Witness for C6, at the claim's example: marker `82 21` at offset 5
and the higher-priority marker `80 01` at offset 2; the split is at
offset 2. -/
theorem C6_marker_scan_witness :
    parse_data defaultMarkers [0, 0, 0x80, 0x01, 0, 0x82, 0x21] =
      .ok ([0, 0], [0x80, 0x01, 0, 0x82, 0x21]) ∧
    findSub [0x80, 0x01] [0, 0, 0x80, 0x01, 0, 0x82, 0x21] = some 2 ∧
    findSub [0x82, 0x21] [0, 0, 0x80, 0x01, 0, 0x82, 0x21] = some 5 := by
  refine ⟨?_, rfl, rfl⟩
  exact (C6_marker_scan [0, 0, 0x80, 0x01, 0, 0x82, 0x21] 2 [0x80, 0x01]
    rfl rfl).1

/-! ## Lemmas about the custom response handler -/

lemma customResponseMessage_ok (fuel : Nat) (frame : List Nat)
    (d : CustomDict) (h : customResponseMessage fuel frame = .ok d) :
    ∃ name mt seqid rest,
      readMessageBegin frame = .ok (name, mt, seqid, rest) ∧
      d = ⟨name, asciiReply, seqid, none, extract_reply fuel rest,
        frame.length⟩ := by
  unfold customResponseMessage at h
  cases hmsg : readMessageBegin frame with
  | error e =>
    rw [hmsg] at h
    cases h
  | ok r =>
    obtain ⟨name, mt, seqid, rest⟩ := r
    rw [hmsg] at h
    simp only [except_ok_bind] at h
    have := Except.ok.inj h
    exact ⟨name, mt, seqid, rest, rfl, this.symm⟩

lemma tryCandidates_custom (tmRead : List Nat → TMResult) (fuel : Nat)
    (frame : List Nat) :
    ∀ (cs : List (List Nat)) (d : CustomDict),
      tryCandidates tmRead fuel frame cs = .customD d →
      ∃ slice, customResponseMessage fuel slice = .ok d := by
  intro cs
  induction cs with
  | nil =>
    intro d h
    cases h
  | cons c rest ih =>
    intro d h
    unfold tryCandidates at h
    cases hf : findSub c frame with
    | none =>
      rw [hf] at h
      exact ih d h
    | some idx =>
      rw [hf] at h
      replace h : (if c = [0x80, 0x01, 0x00, 0x02] ∨
          c = [0x82, 0x21, 0x00, 0x02] then
          match customResponseMessage fuel (frame.drop idx) with
          | .ok d0 => ThriftDict.customD d0
          | .error _ => tryCandidates tmRead fuel frame rest
        else
          match tmRead (frame.drop idx) with
          | .okMsg m => ThriftDict.extD m
          | .noneMsg => tryCandidates tmRead fuel frame rest
          | .unhashable =>
            match customResponseMessage fuel (frame.drop idx) with
            | .ok d0 => ThriftDict.customD d0
            | .error _ => tryCandidates tmRead fuel frame rest
          | .failed => tryCandidates tmRead fuel frame rest) =
          ThriftDict.customD d := h
      by_cases hc : c = [0x80, 0x01, 0x00, 0x02] ∨ c = [0x82, 0x21, 0x00, 0x02]
      · rw [if_pos hc] at h
        cases hcm : customResponseMessage fuel (frame.drop idx) with
        | ok d0 =>
          rw [hcm] at h
          have := ThriftDict.customD.inj h
          subst this
          exact ⟨frame.drop idx, hcm⟩
        | error e =>
          rw [hcm] at h
          exact ih d h
      · rw [if_neg hc] at h
        cases htm : tmRead (frame.drop idx) with
        | okMsg m =>
          rw [htm] at h
          cases h
        | noneMsg =>
          rw [htm] at h
          exact ih d h
        | unhashable =>
          rw [htm] at h
          cases hcm : customResponseMessage fuel (frame.drop idx) with
          | ok d0 =>
            rw [hcm] at h
            have := ThriftDict.customD.inj h
            subst this
            exact ⟨frame.drop idx, hcm⟩
          | error e =>
            rw [hcm] at h
            exact ih d h
        | failed =>
          rw [htm] at h
          exact ih d h

lemma decode_thrift_message_custom (tmRead : List Nat → TMResult)
    (fuel : Nat) (frame : List Nat) (d : CustomDict)
    (h : decode_thrift_message tmRead fuel frame = .customD d) :
    ∃ slice, customResponseMessage fuel slice = .ok d := by
  unfold decode_thrift_message at h
  by_cases hc : frame.take 4 = [0x80, 0x01, 0x00, 0x02]
      ∨ frame.take 4 = [0x82, 0x21, 0x00, 0x02]
  · rw [if_pos hc] at h
    cases hcm : customResponseMessage fuel frame with
    | ok d0 =>
      rw [hcm] at h
      have := ThriftDict.customD.inj h
      subst this
      exact ⟨frame, hcm⟩
    | error e =>
      rw [hcm] at h
      exact tryCandidates_custom tmRead fuel frame decodeCandidates d h
  · rw [if_neg hc] at h
    exact tryCandidates_custom tmRead fuel frame decodeCandidates d h

/-- C10: every frame the pipeline decodes through the custom response
handler — whether detected by a reply marker or re-routed there after
the unhashable-struct fallback, including call frames — is reported
with `"type"` fixed to `"reply"` and its body stored under the
`"reply"` key as the `_extract_reply` result, regardless of the
message-kind value actually read from the wire by `readMessageBegin`. -/
theorem C10_custom_handler_reports_reply (tmRead : List Nat → TMResult)
    (fuel : Nat) (frame : List Nat) (d : CustomDict)
    (h : decode_thrift_message tmRead fuel frame = .customD d) :
    d.typ = asciiReply ∧
    ∃ slice name mt seqid rest,
      customResponseMessage fuel slice = .ok d ∧
      readMessageBegin slice = .ok (name, mt, seqid, rest) ∧
      d = ⟨name, asciiReply, seqid, none, extract_reply fuel rest,
        slice.length⟩ := by
  obtain ⟨slice, hcm⟩ := decode_thrift_message_custom tmRead fuel frame d h
  obtain ⟨name, mt, seqid, rest, hmsg, hd⟩ :=
    customResponseMessage_ok fuel slice d hcm
  exact ⟨by rw [hd], slice, name, mt, seqid, rest, hcm, hmsg, hd⟩

/-- Witness for C10 at a call frame (wire message kind 1) routed to the
custom handler by the unhashable-struct fallback: the produced dict
still says `"reply"`. -/
theorem C10_custom_handler_reports_reply_witness :
    decode_thrift_message (fun _ => TMResult.unhashable) 50
      [0x80, 0x01, 0x00, 0x01, 0, 0, 0, 1, 109, 0, 0, 0, 7, 0] =
      .customD ⟨[109], asciiReply, 7, none, .fieldsR [], 14⟩ ∧
    ([114, 101, 112, 108, 121] : List Nat) = asciiReply := by
  have h : decode_thrift_message (fun _ => TMResult.unhashable) 50
      [0x80, 0x01, 0x00, 0x01, 0, 0, 0, 1, 109, 0, 0, 0, 7, 0] =
      .customD ⟨[109], asciiReply, 7, none, .fieldsR [], 14⟩ := rfl
  refine ⟨h, ?_⟩
  have h2 := (C10_custom_handler_reports_reply (fun _ => TMResult.unhashable)
    50 _ _ h).1
  exact h2

/-- C3 (amended): a single-field decode failure — a corrupt field or an
unrecognized field type tag (for which the placeholder note is built
but the subsequent `protocol.skip` raises) — aborts the decode of the
whole enclosing struct: the exception propagates out of the field loop,
all previously decoded sibling fields are discarded, and it is caught
only at the reply-extraction boundary, where the entire body is
replaced by one `{"error": ...}` dict; it never escalates past
`CustomResponseMessage`. -/
theorem C3_field_error_aborts_struct (fuel : Nat)
    (frame name : List Nat) (mt seqid : Int) (rest : List Nat) (e : String)
    (hmsg : readMessageBegin frame = .ok (name, mt, seqid, rest))
    (herr : readStructFields fuel rest = .error e) :
    extract_reply fuel rest = .errorR e ∧
    customResponseMessage fuel frame =
      .ok ⟨name, asciiReply, seqid, none, .errorR e, frame.length⟩ := by
  have hex : extract_reply fuel rest = .errorR e := by
    unfold extract_reply
    rw [herr]
  refine ⟨hex, ?_⟩
  unfold customResponseMessage
  rw [hmsg]
  simp only [except_ok_bind]
  rw [hex]

/-- Witness for C3 (amended): a reply frame whose body has a valid
`i32` field followed by a string field whose length overruns the
buffer; the whole reply collapses to the error dict. -/
theorem C3_field_error_aborts_struct_witness :
    customResponseMessage 100
      ([0x80, 0x01, 0x00, 0x02] ++ [0, 0, 0, 1, 109] ++ [0, 0, 0, 7] ++
        [8, 0, 1, 0, 0, 0, 42, 11, 0, 2, 0, 0, 0, 5, 97, 98]) =
      .ok ⟨[109], asciiReply, 7, none, .errorR "EOFError", 29⟩ := by
  have hm : readMessageBegin
      ([0x80, 0x01, 0x00, 0x02] ++ [0, 0, 0, 1, 109] ++ [0, 0, 0, 7] ++
        [8, 0, 1, 0, 0, 0, 42, 11, 0, 2, 0, 0, 0, 5, 97, 98]) =
      .ok ([109], 2, 7,
        [8, 0, 1, 0, 0, 0, 42, 11, 0, 2, 0, 0, 0, 5, 97, 98]) := by rfl
  have he : readStructFields 100
      [8, 0, 1, 0, 0, 0, 42, 11, 0, 2, 0, 0, 0, 5, 97, 98] =
      .error "EOFError" := by rfl
  have h := C3_field_error_aborts_struct 100
    ([0x80, 0x01, 0x00, 0x02] ++ [0, 0, 0, 1, 109] ++ [0, 0, 0, 7] ++
      [8, 0, 1, 0, 0, 0, 42, 11, 0, 2, 0, 0, 0, 5, 97, 98])
    [109] 2 7 [8, 0, 1, 0, 0, 0, 42, 11, 0, 2, 0, 0, 0, 5, 97, 98]
    "EOFError" hm he
  exact h.2

/-- Counterexample for C3 as frozen: in this frame the first body field
(`i32` id 1, value 42) decodes fine on its own and the second field is
a corrupt string (declared length 5, two bytes available); the claim
promises an inline error-annotated placeholder with decoding of the
enclosing struct continuing, but the code discards the good field and
replaces the whole body with a single error dict. -/
theorem C3_counterexample :
    decodeValue 100 8 [0, 0, 0, 42] = .ok (.vint 42, []) ∧
    readStructFields 100
      [8, 0, 1, 0, 0, 0, 42, 11, 0, 2, 0, 0, 0, 5, 97, 98] =
      .error "EOFError" ∧
    customResponseMessage 100
      ([0x80, 0x01, 0x00, 0x02] ++ [0, 0, 0, 1, 109] ++ [0, 0, 0, 7] ++
        [8, 0, 1, 0, 0, 0, 42, 11, 0, 2, 0, 0, 0, 5, 97, 98]) =
      .ok ⟨[109], asciiReply, 7, none, .errorR "EOFError", 29⟩ :=
  ⟨rfl, rfl, rfl⟩

/-- C4: the top-level `decode` is total — for every input it produces
either the merged success document or the fixed error document (the
literal `{"error": ..., "metadata": {}, "headers": {}, "thrift":
{"method": "unknown", "type": "unknown", "seqid": 0, "args": None}}` of
converter.py lines 235-245, denoted `OutDoc.failure`); a frame or
header failure is converted into that error document; when framing and
headers succeed the document carries whatever `decode_thrift_message`
returned — the `"unknown"` placeholder `EmptyThriftMessage` when the
body was unrecoverable, with the `thrift_parse_error` flag set exactly
then.  Every constructor of `OutDoc` is first-order data, hence
JSON-serializable. -/
theorem C4_decode_total (tmRead : List Nat → TMResult) (fuel : Nat)
    (data : List Nat) :
    ((∃ h t b, decode tmRead fuel data = .success h t b) ∨
      (∃ e, decode tmRead fuel data = .failure e)) ∧
    (∀ e, parse_data defaultMarkers data = .error e →
      decode tmRead fuel data =
        .failure ("Failed to decode message: " ++ e)) ∧
    (∀ rawHeaders rawFrame e,
      parse_data defaultMarkers data = .ok (rawHeaders, rawFrame) →
      decode_headers rawHeaders = .error e →
      decode tmRead fuel data =
        .failure ("Failed to decode message: " ++ e)) ∧
    (∀ rawHeaders rawFrame hdoc,
      parse_data defaultMarkers data = .ok (rawHeaders, rawFrame) →
      decode_headers rawHeaders = .ok hdoc →
      decode tmRead fuel data =
        .success hdoc (decode_thrift_message tmRead fuel rawFrame)
          (decode_thrift_message tmRead fuel rawFrame).hasErrorKey) ∧
    (∀ rawHeaders rawFrame hdoc,
      parse_data defaultMarkers data = .ok (rawHeaders, rawFrame) →
      decode_headers rawHeaders = .ok hdoc →
      decode_thrift_message tmRead fuel rawFrame = .emptyD →
      decode tmRead fuel data = .success hdoc .emptyD true) := by
  have h2 : ∀ e, parse_data defaultMarkers data = .error e →
      decode tmRead fuel data =
        .failure ("Failed to decode message: " ++ e) := by
    intro e hp
    unfold decode
    rw [hp]
  have h3 : ∀ rawHeaders rawFrame e,
      parse_data defaultMarkers data = .ok (rawHeaders, rawFrame) →
      decode_headers rawHeaders = .error e →
      decode tmRead fuel data =
        .failure ("Failed to decode message: " ++ e) := by
    intro rawHeaders rawFrame e hp hh
    unfold decode
    rw [hp]
    show (match decode_headers rawHeaders with
      | Except.error e => OutDoc.failure ("Failed to decode message: " ++ e)
      | Except.ok hdoc =>
        OutDoc.success hdoc (decode_thrift_message tmRead fuel rawFrame)
          (decode_thrift_message tmRead fuel rawFrame).hasErrorKey) =
      OutDoc.failure ("Failed to decode message: " ++ e)
    rw [hh]
  have h4 : ∀ rawHeaders rawFrame hdoc,
      parse_data defaultMarkers data = .ok (rawHeaders, rawFrame) →
      decode_headers rawHeaders = .ok hdoc →
      decode tmRead fuel data =
        .success hdoc (decode_thrift_message tmRead fuel rawFrame)
          (decode_thrift_message tmRead fuel rawFrame).hasErrorKey := by
    intro rawHeaders rawFrame hdoc hp hh
    unfold decode
    rw [hp]
    show (match decode_headers rawHeaders with
      | Except.error e => OutDoc.failure ("Failed to decode message: " ++ e)
      | Except.ok hdoc =>
        OutDoc.success hdoc (decode_thrift_message tmRead fuel rawFrame)
          (decode_thrift_message tmRead fuel rawFrame).hasErrorKey) =
      OutDoc.success hdoc (decode_thrift_message tmRead fuel rawFrame)
        (decode_thrift_message tmRead fuel rawFrame).hasErrorKey
    rw [hh]
  refine ⟨?_, h2, h3, h4, ?_⟩
  · cases hp : parse_data defaultMarkers data with
    | error e => exact Or.inr ⟨_, h2 e hp⟩
    | ok pr =>
      obtain ⟨rh, rf⟩ := pr
      cases hh : decode_headers rh with
      | error e => exact Or.inr ⟨_, h3 rh rf e hp hh⟩
      | ok hdoc => exact Or.inl ⟨_, _, _, h4 rh rf hdoc hp hh⟩
  · intro rawHeaders rawFrame hdoc hp hh ht
    rw [h4 rawHeaders rawFrame hdoc hp hh, ht]
    rfl

/-- Witness for C4: an empty input yields the error document; an input
whose envelope parses but whose body is unrecoverable yields the
success document with the `"unknown"` placeholder and the parse-error
flag. -/
theorem C4_decode_total_witness :
    decode (fun _ => TMResult.failed) 50 [] =
      .failure
        "Failed to decode message: No Thrift/Frugal marker found in the message"
    ∧
    decode (fun _ => TMResult.failed) 50
        [0, 0, 0, 11, 0, 0, 0, 0, 1, 99, 88, 77] =
      .success ⟨11, 0, 1, []⟩ .emptyD true := by
  constructor
  · exact (C4_decode_total (fun _ => TMResult.failed) 50 []).2.1 _ rfl
  · exact (C4_decode_total (fun _ => TMResult.failed) 50
      [0, 0, 0, 11, 0, 0, 0, 0, 1, 99, 88, 77]).2.2.2.2
      [0, 0, 0, 11, 0, 0, 0, 0, 1, 99] [88, 77] ⟨11, 0, 1, []⟩
      (by rfl) (by rfl) (by rfl)

/-! ## Round-trip lemmas for the protocol primitives -/

lemma toSigned_emod_toNat (w : Nat) (n : Int) (hw : 1 ≤ w)
    (h1 : -((2 : Int) ^ (w - 1)) ≤ n) (h2 : n < (2 : Int) ^ (w - 1)) :
    toSigned w ((n.emod ((2 : Int) ^ w)).toNat) = n := by
  have hsplit : (2 : Int) ^ w = 2 ^ (w - 1) * 2 := by
    rw [← pow_succ]
    congr 1
    omega
  have hMpos : (0 : Int) < 2 ^ (w - 1) := by positivity
  have hmod : n.emod ((2 : Int) ^ w) = if 0 ≤ n then n else n + 2 ^ w := by
    by_cases hn : 0 ≤ n
    · rw [if_pos hn]
      exact Int.emod_eq_of_lt hn (by omega)
    · rw [if_neg hn]
      have : (n + 2 ^ w).emod ((2 : Int) ^ w) = n.emod (2 ^ w) := by
        show (n + 2 ^ w) % ((2 : Int) ^ w) = n % (2 ^ w)
        simp [Int.add_mul_emod_self_left]
      rw [← this]
      exact Int.emod_eq_of_lt (by omega) (by omega)
  unfold toSigned
  have hnatcast : ((2 : Nat) ^ (w - 1) : Int) = (2 : Int) ^ (w - 1) := by
    push_cast
    ring
  have hnatcast2 : ((2 : Nat) ^ w : Int) = (2 : Int) ^ w := by
    push_cast
    ring
  by_cases hn : 0 ≤ n
  · rw [hmod, if_pos hn]
    rw [if_pos (by omega)]
    omega
  · rw [hmod, if_neg hn]
    rw [if_neg (by omega)]
    omega

lemma readBE_beBytes (w : Nat) (m : Nat) (h : m < 256 ^ w) (extra : List Nat) :
    readBE w (beBytes w m ++ extra) = .ok (m, extra) := by
  unfold readBE readBytes
  have hlen : (beBytes w m).length = w := beBytes_length w m
  rw [if_pos (by simp [hlen])]
  simp only [except_ok_bind, List.take_left' hlen, List.drop_left' hlen]
  rw [beVal_beBytes w m h]

lemma pow256_pow2 (w : Nat) : (256 : Nat) ^ w = 2 ^ (8 * w) := by
  have : (256 : Nat) = 2 ^ 8 := by norm_num
  rw [this, ← pow_mul]

lemma emod_toNat_lt (n : Int) (w : Nat) :
    (n.emod ((2 : Int) ^ w)).toNat < 2 ^ w := by
  have hpos : (0 : Int) < 2 ^ w := by positivity
  have h1 : 0 ≤ n.emod ((2 : Int) ^ w) := Int.emod_nonneg n (by omega)
  have h2 : n.emod ((2 : Int) ^ w) < 2 ^ w := Int.emod_lt_of_pos n hpos
  have : ((2 : Nat) ^ w : Int) = (2 : Int) ^ w := by push_cast; ring
  omega

lemma readByte_writeByte (n : Int) (h1 : -128 ≤ n) (h2 : n < 128) :
    ∃ bs, writeByte n = .ok bs ∧
      ∀ extra, readByte (bs ++ extra) = .ok (n, extra) := by
  refine ⟨[(n.emod 256).toNat], ?_, ?_⟩
  · unfold writeByte
    rw [if_pos ⟨h1, h2⟩]
  · intro extra
    unfold readByte
    have hv : (n.emod 256).toNat < 256 ^ 1 := by
      have := emod_toNat_lt n 8
      norm_num at this ⊢
      omega
    have hr : readBE 1 ([(n.emod 256).toNat] ++ extra) =
        .ok ((n.emod 256).toNat, extra) := by
      have : beBytes 1 ((n.emod 256).toNat) = [(n.emod 256).toNat] := by
        simp [beBytes]
        omega
      rw [← this]
      exact readBE_beBytes 1 _ hv extra
    rw [hr]
    simp only [except_ok_bind]
    have := toSigned_emod_toNat 8 n (by omega) (by norm_num; omega)
      (by norm_num; omega)
    norm_num at this
    rw [this]

lemma readIw_writeIw (w : Nat) (hw : 1 ≤ w) (n : Int)
    (h1 : -((2 : Int) ^ (8 * w - 1)) ≤ n) (h2 : n < (2 : Int) ^ (8 * w - 1))
    (extra : List Nat) :
    readBE w (beBytes w ((n.emod ((2 : Int) ^ (8 * w))).toNat) ++ extra) =
      .ok ((n.emod ((2 : Int) ^ (8 * w))).toNat, extra) ∧
    toSigned (8 * w) ((n.emod ((2 : Int) ^ (8 * w))).toNat) = n := by
  constructor
  · exact readBE_beBytes w _ (by rw [pow256_pow2]; exact emod_toNat_lt n _) extra
  · exact toSigned_emod_toNat (8 * w) n (by omega) h1 h2

lemma readByte_cons (x : Nat) (extra : List Nat) :
    readByte (x :: extra) = .ok (toSigned 8 x, extra) := by
  unfold readByte readBE readBytes
  rw [if_pos (by simp)]
  simp [except_ok_bind, beVal]

lemma readBool_writeBool (b : Bool) (extra : List Nat) :
    readBool (writeBool b ++ extra) = .ok (b, extra) := by
  cases b <;>
    simp [writeBool, readBool, readByte_cons, toSigned, except_ok_bind]

lemma readI16_writeI16 (n : Int) (h1 : -(2 ^ 15) ≤ n) (h2 : n < 2 ^ 15) :
    ∃ bs, writeI16 n = .ok bs ∧
      ∀ extra, readI16 (bs ++ extra) = .ok (n, extra) := by
  refine ⟨beBytes 2 ((n.emod (2 ^ 16)).toNat), ?_, ?_⟩
  · unfold writeI16
    rw [if_pos ⟨h1, h2⟩]
  · intro extra
    have hk := readIw_writeIw 2 (by omega) n h1 h2 extra
    have hk1 : readBE 2 (beBytes 2 ((n.emod ((2 : Int) ^ 16)).toNat) ++
        extra) = .ok ((n.emod ((2 : Int) ^ 16)).toNat, extra) := hk.1
    have hk2 : toSigned 16 ((n.emod ((2 : Int) ^ 16)).toNat) = n := hk.2
    unfold readI16
    rw [hk1]
    simp only [except_ok_bind]
    rw [hk2]

lemma readI32_writeI32 (n : Int) (h1 : -(2 ^ 31) ≤ n) (h2 : n < 2 ^ 31) :
    ∃ bs, writeI32 n = .ok bs ∧
      ∀ extra, readI32 (bs ++ extra) = .ok (n, extra) := by
  refine ⟨beBytes 4 ((n.emod (2 ^ 32)).toNat), ?_, ?_⟩
  · unfold writeI32
    rw [if_pos ⟨h1, h2⟩]
  · intro extra
    have hk := readIw_writeIw 4 (by omega) n h1 h2 extra
    have hk1 : readBE 4 (beBytes 4 ((n.emod ((2 : Int) ^ 32)).toNat) ++
        extra) = .ok ((n.emod ((2 : Int) ^ 32)).toNat, extra) := hk.1
    have hk2 : toSigned 32 ((n.emod ((2 : Int) ^ 32)).toNat) = n := hk.2
    unfold readI32
    rw [hk1]
    simp only [except_ok_bind]
    rw [hk2]

lemma readI64_writeI64 (n : Int) (h1 : -(2 ^ 63) ≤ n) (h2 : n < 2 ^ 63) :
    ∃ bs, writeI64 n = .ok bs ∧
      ∀ extra, readI64 (bs ++ extra) = .ok (n, extra) := by
  refine ⟨beBytes 8 ((n.emod (2 ^ 64)).toNat), ?_, ?_⟩
  · unfold writeI64
    rw [if_pos ⟨h1, h2⟩]
  · intro extra
    have hk := readIw_writeIw 8 (by omega) n h1 h2 extra
    have hk1 : readBE 8 (beBytes 8 ((n.emod ((2 : Int) ^ 64)).toNat) ++
        extra) = .ok ((n.emod ((2 : Int) ^ 64)).toNat, extra) := hk.1
    have hk2 : toSigned 64 ((n.emod ((2 : Int) ^ 64)).toNat) = n := hk.2
    unfold readI64
    rw [hk1]
    simp only [except_ok_bind]
    rw [hk2]

lemma readDouble_writeDouble (bits : Nat) (h : bits < 2 ^ 64)
    (extra : List Nat) :
    readDouble (writeDouble bits ++ extra) = .ok (bits, extra) := by
  unfold readDouble writeDouble
  exact readBE_beBytes 8 bits (by rw [pow256_pow2]; norm_num; omega) extra

lemma readString_writeString (s : List Nat) (h : s.length < 2 ^ 31) :
    ∃ bs, writeString s = .ok bs ∧
      ∀ extra, readString (bs ++ extra) = .ok (s, extra) := by
  obtain ⟨lb, hw, hr⟩ := readI32_writeI32 s.length (by omega)
    (by norm_num at h ⊢; omega)
  refine ⟨lb ++ s, ?_, ?_⟩
  · unfold writeString
    rw [hw]
    rfl
  · intro extra
    unfold readString
    rw [List.append_assoc, hr (s ++ extra)]
    simp only [except_ok_bind]
    rw [if_neg (by omega)]
    unfold readBytes
    rw [if_pos (by simp)]
    simp [List.take_left, List.drop_left]

/-! ## The encodable-document predicate for the round trip

`WfValue tn v` singles out the documents on which the encoder and the
custom decoder are exact inverses: scalars in range of their declared
type, structs recursively, lists that are empty or homogeneous in one
inferable shape, sets of strings or of structs, and maps with default
(string) key and value types.  These restrictions are forced by the
counterexamples: anything outside them is changed by the encoder
(stringified set elements, stringified map values, bools written as
ints, and so on). -/

/-- Entries of a map document that survive the round trip: string
values under the default string value type. -/
inductive WfStrEntries : List (List Nat × DocValue) → Prop where
  | nil : WfStrEntries []
  | cons : ∀ (k s : List Nat) rest, k.length < 2 ^ 31 → s.length < 2 ^ 31 →
      WfStrEntries rest → WfStrEntries ((k, DocValue.vstr s) :: rest)

mutual
inductive WfFields : List DocField → Prop where
  | nil : WfFields []
  | cons : ∀ f rest, WfField f → WfFields rest → WfFields (f :: rest)

inductive WfField : DocField → Prop where
  | mk : ∀ (fid : Int) (tn : TName) (v : DocValue),
      -(2 ^ 15) ≤ fid → fid < 2 ^ 15 → WfValue tn v →
      WfField (.mk fid tn none none none v)

inductive WfValue : TName → DocValue → Prop where
  | wbool : ∀ b, WfValue .tbool (.vbool b)
  | wi8 : ∀ n : Int, -128 ≤ n → n < 128 → WfValue .ti8 (.vint n)
  | wi16 : ∀ n : Int, -(2 ^ 15) ≤ n → n < 2 ^ 15 → WfValue .ti16 (.vint n)
  | wi32 : ∀ n : Int, -(2 ^ 31) ≤ n → n < 2 ^ 31 → WfValue .ti32 (.vint n)
  | wi64 : ∀ n : Int, -(2 ^ 63) ≤ n → n < 2 ^ 63 → WfValue .ti64 (.vint n)
  | wdouble : ∀ bits : Nat, bits < 2 ^ 64 → WfValue .tdouble (.vfloat bits)
  | wstring : ∀ s : List Nat, s.length < 2 ^ 31 →
      WfValue .tstring (.vstr s)
  | wstruct : ∀ fs, WfFields fs → WfValue .tstruct (.vstruct fs)
  | wlist_empty : WfValue .tlist (.varr [])
  | wlist_bool : ∀ items, items ≠ [] → items.length < 2 ^ 31 →
      (∀ x ∈ items, ∃ b, x = DocValue.vbool b) →
      WfValue .tlist (.varr items)
  | wlist_int : ∀ items, items ≠ [] → items.length < 2 ^ 31 →
      (∀ x ∈ items, ∃ n : Int, x = DocValue.vint n ∧
        -(2 ^ 31) ≤ n ∧ n < 2 ^ 31) →
      WfValue .tlist (.varr items)
  | wlist_float : ∀ items, items ≠ [] → items.length < 2 ^ 31 →
      (∀ x ∈ items, ∃ bits : Nat, x = DocValue.vfloat bits ∧
        bits < 2 ^ 64) →
      WfValue .tlist (.varr items)
  | wlist_str : ∀ items, items ≠ [] → items.length < 2 ^ 31 →
      (∀ x ∈ items, ∃ s : List Nat, x = DocValue.vstr s ∧
        s.length < 2 ^ 31) →
      WfValue .tlist (.varr items)
  | wlist_struct : ∀ items, items ≠ [] → items.length < 2 ^ 31 →
      WfStructItems items → WfValue .tlist (.varr items)
  | wset_str : ∀ items, items.length < 2 ^ 31 →
      (∀ x ∈ items, ∃ s : List Nat, x = DocValue.vstr s ∧
        s.length < 2 ^ 31) →
      WfValue .tset (.varr items)
  | wset_struct : ∀ items, items ≠ [] → items.length < 2 ^ 31 →
      WfStructItems items → WfValue .tset (.varr items)
  | wmap : ∀ entries, entries.length < 2 ^ 31 →
      (entries.map Prod.fst).Nodup → WfStrEntries entries →
      WfValue .tmap (.vdict entries)

inductive WfStructItems : List DocValue → Prop where
  | nil : WfStructItems []
  | cons : ∀ fs rest, WfFields fs → WfStructItems rest →
      WfStructItems (DocValue.vstruct fs :: rest)
end

lemma measureV_pos (v : DocValue) : 4 ≤ measureV v := by
  cases v <;> simp [measureV]

lemma measureF_pos (fs : List DocField) : 1 ≤ measureF fs := by
  cases fs with
  | nil => simp [measureF]
  | cons fd rest =>
    cases fd with
    | mk a b c d e v => simp [measureF, measureFd]; omega

lemma measureL_pos (xs : List DocValue) : 1 ≤ measureL xs := by
  cases xs with
  | nil => simp [measureL]
  | cons x rest => simp [measureL]; have := measureV_pos x; omega

lemma measureE_pos (l : List (List Nat × DocValue)) : 1 ≤ measureE l := by
  cases l with
  | nil => simp [measureE]
  | cons p rest => obtain ⟨k, v⟩ := p; simp [measureE]; omega

/-! ## Definitional characterizations of the decoder and encoder steps -/

lemma dv_bool (f : Nat) (st : List Nat) :
    decodeValue (f + 1) TBOOL st =
      readBool st >>= fun r => .ok (.vbool r.1, r.2) := rfl

lemma dv_byte (f : Nat) (st : List Nat) :
    decodeValue (f + 1) TBYTE st =
      readByte st >>= fun r => .ok (.vint r.1, r.2) := rfl

lemma dv_i16 (f : Nat) (st : List Nat) :
    decodeValue (f + 1) TI16 st =
      readI16 st >>= fun r => .ok (.vint r.1, r.2) := rfl

lemma dv_i32 (f : Nat) (st : List Nat) :
    decodeValue (f + 1) TI32 st =
      readI32 st >>= fun r => .ok (.vint r.1, r.2) := rfl

lemma dv_i64 (f : Nat) (st : List Nat) :
    decodeValue (f + 1) TI64 st =
      readI64 st >>= fun r => .ok (.vint r.1, r.2) := rfl

lemma dv_double (f : Nat) (st : List Nat) :
    decodeValue (f + 1) TDOUBLE st =
      readDouble st >>= fun r => .ok (.vfloat r.1, r.2) := rfl

lemma dv_string (f : Nat) (st : List Nat) :
    decodeValue (f + 1) TSTRING st =
      readString st >>= fun r => .ok (.vstr r.1, r.2) := rfl

lemma dv_struct (f : Nat) (st : List Nat) :
    decodeValue (f + 1) TSTRUCT st =
      readStructFields f st >>= fun r => .ok (.vstruct r.1, r.2) := rfl

lemma dv_list (f : Nat) (st : List Nat) :
    decodeValue (f + 1) TLIST st =
      readListBegin st >>= fun r =>
        readItems f r.1 r.2.1 r.2.2 >>= fun q =>
          .ok (.varr q.1, q.2) := rfl

lemma dv_set (f : Nat) (st : List Nat) :
    decodeValue (f + 1) TSET st =
      readSetBegin st >>= fun r =>
        readItems f r.1 r.2.1 r.2.2 >>= fun q =>
          .ok (.varr q.1, q.2) := rfl

lemma dv_map (f : Nat) (st : List Nat) :
    decodeValue (f + 1) TMAP st =
      readMapBegin st >>= fun r =>
        readMapEntries f r.1 r.2.1 r.2.2.1 0 [] r.2.2.2 >>= fun q =>
          .ok (.vdict q.1, q.2) := rfl

lemma rsf_step (f : Nat) (st : List Nat) :
    readStructFields (f + 1) st =
      readFieldBegin st >>= fun r =>
        if r.1 = TSTOP then .ok ([], r.2.2)
        else
          decodeValue f r.1 r.2.2 >>= fun q =>
            readStructFields f q.2 >>= fun w =>
              .ok (.mk r.2.1 (typeNameOf r.1) none none none q.1 :: w.1,
                w.2) := rfl

lemma ri_zero (f : Nat) (et : Int) (st : List Nat) :
    readItems (f + 1) et 0 st = .ok ([], st) := rfl

lemma ri_succ (f : Nat) (et : Int) (m : Nat) (st : List Nat) :
    readItems (f + 1) et (m + 1) st =
      decodeValue f et st >>= fun p =>
        readItems f et m p.2 >>= fun q =>
          .ok (p.1 :: q.1, q.2) := rfl

lemma rme_zero (f : Nat) (kt vt : Int) (i : Nat)
    (acc : List (List Nat × DocValue)) (st : List Nat) :
    readMapEntries (f + 1) kt vt 0 i acc st = .ok (acc, st) := rfl

lemma rme_succ_str (f : Nat) (vt : Int) (m i : Nat)
    (acc : List (List Nat × DocValue)) (st : List Nat) :
    readMapEntries (f + 1) TSTRING vt (m + 1) i acc st =
      readString st >>= fun kp =>
        decodeValue f vt kp.2 >>= fun vp =>
          readMapEntries f TSTRING vt m (i + 1)
            (pyInsertV acc kp.1 vp.1) vp.2 := rfl

lemma wv_bool (f : Nat) (fid : Int) (tn : TName) (o1 o2 o3 : Option TName)
    (b : Bool) :
    write_value (f + 1) TBOOL (.mk fid tn o1 o2 o3 (.vbool b)) =
      .ok (writeBool b) := rfl

lemma wv_byte (f : Nat) (fid : Int) (tn : TName) (o1 o2 o3 : Option TName)
    (n : Int) :
    write_value (f + 1) TBYTE (.mk fid tn o1 o2 o3 (.vint n)) =
      writeByte n := rfl

lemma wv_i16 (f : Nat) (fid : Int) (tn : TName) (o1 o2 o3 : Option TName)
    (n : Int) :
    write_value (f + 1) TI16 (.mk fid tn o1 o2 o3 (.vint n)) =
      writeI16 n := rfl

lemma wv_i32 (f : Nat) (fid : Int) (tn : TName) (o1 o2 o3 : Option TName)
    (n : Int) :
    write_value (f + 1) TI32 (.mk fid tn o1 o2 o3 (.vint n)) =
      writeI32 n := rfl

lemma wv_i64 (f : Nat) (fid : Int) (tn : TName) (o1 o2 o3 : Option TName)
    (n : Int) :
    write_value (f + 1) TI64 (.mk fid tn o1 o2 o3 (.vint n)) =
      writeI64 n := rfl

lemma wv_double (f : Nat) (fid : Int) (tn : TName) (o1 o2 o3 : Option TName)
    (bits : Nat) :
    write_value (f + 1) TDOUBLE (.mk fid tn o1 o2 o3 (.vfloat bits)) =
      .ok (writeDouble bits) := rfl

lemma wv_string (f : Nat) (fid : Int) (tn : TName) (o1 o2 o3 : Option TName)
    (s : List Nat) :
    write_value (f + 1) TSTRING (.mk fid tn o1 o2 o3 (.vstr s)) =
      writeString s := rfl

lemma wv_struct (f : Nat) (field : DocField) :
    write_value (f + 1) TSTRUCT field = write_value_struct f field := rfl

lemma wv_map (f : Nat) (field : DocField) :
    write_value (f + 1) TMAP field = write_value_map f field := rfl

lemma wv_set (f : Nat) (field : DocField) :
    write_value (f + 1) TSET field = write_value_set f field := rfl

lemma wv_list (f : Nat) (field : DocField) :
    write_value (f + 1) TLIST field = write_value_list f field := rfl

lemma wvs_struct (f : Nat) (fid : Int) (tn : TName)
    (o1 o2 o3 : Option TName) (fs : List DocField) :
    write_value_struct (f + 1) (.mk fid tn o1 o2 o3 (.vstruct fs)) =
      write_struct f fs := rfl

lemma wvm_char (f : Nat) (field : DocField) :
    write_value_map (f + 1) field =
      (do
        let entries ← mapEntriesOf field.value
        let kt ← mapTagOf field.key_type
        let vt ← mapTagOf field.value_type
        let sizeB ← writeI32 entries.length
        let body ← write_map_entries f kt vt entries
        Except.ok ((kt.emod 256).toNat :: (vt.emod 256).toNat ::
          sizeB ++ body)) := rfl

lemma wvset_char (f : Nat) (field : DocField) :
    write_value_set (f + 1) field =
      (do
        let items ← pyItems field.value
        let et := inferSetElementType items
        let sizeB ← writeI32 items.length
        let body ←
          if et = TSTRUCT then write_struct_items f items
          else write_plain_items f et items
        Except.ok ((et.emod 256).toNat :: sizeB ++ body)) := rfl

lemma wvlist_char (f : Nat) (field : DocField) :
    write_value_list (f + 1) field =
      (do
        let et ← listTagOf field
        let items ← pyItems field.value
        let sizeB ← writeI32 items.length
        let body ←
          if et = TSTRUCT then write_struct_items f items
          else write_plain_items f et items
        Except.ok ((et.emod 256).toNat :: sizeB ++ body)) := rfl

lemma wvm_dict (f : Nat) (fid : Int) (tn : TName) (o1 : Option TName)
    (l : List (List Nat × DocValue)) (sizeB body : List Nat)
    (h1 : writeI32 (l.map fun p => (DocValue.vstr p.1, p.2)).length =
      .ok sizeB)
    (h2 : write_map_entries f TSTRING TSTRING
      (l.map fun p => (DocValue.vstr p.1, p.2)) = .ok body) :
    write_value_map (f + 1) (.mk fid tn o1 none none (.vdict l)) =
      .ok (11 :: 11 :: sizeB ++ body) := by
  rw [wvm_char]
  simp only [DocField.value, DocField.key_type, DocField.value_type]
  rw [show mapEntriesOf (DocValue.vdict l) =
    Except.ok (l.map (fun p => (DocValue.vstr p.1, p.2))) from rfl,
    except_ok_bind]
  rw [show mapTagOf (none : Option TName) = Except.ok TSTRING from rfl,
    except_ok_bind, except_ok_bind]
  rw [h1, except_ok_bind, h2, except_ok_bind]
  rfl

lemma wvset_plain (f : Nat) (fid : Int) (tn : TName)
    (o1 o2 o3 : Option TName) (items : List DocValue) (et : Int)
    (sizeB body : List Nat)
    (hinf : inferSetElementType items = et) (hne : ¬et = TSTRUCT)
    (h1 : writeI32 items.length = .ok sizeB)
    (h2 : write_plain_items f et items = .ok body) :
    write_value_set (f + 1) (.mk fid tn o1 o2 o3 (.varr items)) =
      .ok ((et.emod 256).toNat :: sizeB ++ body) := by
  rw [wvset_char]
  simp only [DocField.value]
  rw [show pyItems (DocValue.varr items) = Except.ok items from rfl,
    except_ok_bind]
  rw [hinf, h1, except_ok_bind, if_neg hne, h2, except_ok_bind]

lemma wvset_items_struct (f : Nat) (fid : Int) (tn : TName)
    (o1 o2 o3 : Option TName) (items : List DocValue)
    (sizeB body : List Nat)
    (hinf : inferSetElementType items = TSTRUCT)
    (h1 : writeI32 items.length = .ok sizeB)
    (h2 : write_struct_items f items = .ok body) :
    write_value_set (f + 1) (.mk fid tn o1 o2 o3 (.varr items)) =
      .ok ((TSTRUCT.emod 256).toNat :: sizeB ++ body) := by
  rw [wvset_char]
  simp only [DocField.value]
  rw [show pyItems (DocValue.varr items) = Except.ok items from rfl,
    except_ok_bind]
  rw [hinf, h1, except_ok_bind, if_pos rfl, h2, except_ok_bind]

lemma wvlist_plain (f : Nat) (fid : Int) (tn : TName)
    (o2 o3 : Option TName) (items : List DocValue) (et : Int)
    (sizeB body : List Nat)
    (hinf : inferListElementType items = et) (hne : ¬et = TSTRUCT)
    (h1 : writeI32 items.length = .ok sizeB)
    (h2 : write_plain_items f et items = .ok body) :
    write_value_list (f + 1) (.mk fid tn none o2 o3 (.varr items)) =
      .ok ((et.emod 256).toNat :: sizeB ++ body) := by
  rw [wvlist_char]
  rw [show listTagOf (.mk fid tn none o2 o3 (.varr items)) =
    Except.ok (inferListElementType items) from rfl, except_ok_bind]
  simp only [DocField.value]
  rw [show pyItems (DocValue.varr items) = Except.ok items from rfl,
    except_ok_bind]
  rw [hinf, h1, except_ok_bind, if_neg hne, h2, except_ok_bind]

lemma wvlist_items_struct (f : Nat) (fid : Int) (tn : TName)
    (o2 o3 : Option TName) (items : List DocValue)
    (sizeB body : List Nat)
    (hinf : inferListElementType items = TSTRUCT)
    (h1 : writeI32 items.length = .ok sizeB)
    (h2 : write_struct_items f items = .ok body) :
    write_value_list (f + 1) (.mk fid tn none o2 o3 (.varr items)) =
      .ok ((TSTRUCT.emod 256).toNat :: sizeB ++ body) := by
  rw [wvlist_char]
  rw [show listTagOf (.mk fid tn none o2 o3 (.varr items)) =
    Except.ok (inferListElementType items) from rfl, except_ok_bind]
  simp only [DocField.value]
  rw [show pyItems (DocValue.varr items) = Except.ok items from rfl,
    except_ok_bind]
  rw [hinf, h1, except_ok_bind, if_pos rfl, h2, except_ok_bind]

lemma wfv_bool (f : Nat) (b : Bool) :
    write_field_value (f + 1) TBOOL (.vbool b) = .ok (writeBool b) := rfl

lemma wfv_i32 (f : Nat) (n : Int) :
    write_field_value (f + 1) TI32 (.vint n) = writeI32 n := rfl

lemma wfv_double (f : Nat) (bits : Nat) :
    write_field_value (f + 1) TDOUBLE (.vfloat bits) =
      .ok (writeDouble bits) := rfl

lemma wfv_string (f : Nat) (s : List Nat) :
    write_field_value (f + 1) TSTRING (.vstr s) = writeString s := rfl

lemma wpi_nil (f : Nat) (et : Int) :
    write_plain_items (f + 1) et [] = .ok [] := rfl

lemma wpi_cons (f : Nat) (et : Int) (x : DocValue) (rest : List DocValue) :
    write_plain_items (f + 1) et (x :: rest) =
      write_field_value f et x >>= fun b =>
        write_plain_items f et rest >>= fun tail =>
          .ok (b ++ tail) := rfl

lemma wsi_nil (f : Nat) : write_struct_items (f + 1) [] = .ok [] := rfl

lemma wsi_cons_struct (f : Nat) (fs : List DocField)
    (rest : List DocValue) :
    write_struct_items (f + 1) (DocValue.vstruct fs :: rest) =
      write_struct f fs >>= fun b =>
        write_struct_items f rest >>= fun tail =>
          .ok (b ++ tail) := rfl

lemma wme_nil (f : Nat) (kt vt : Int) :
    write_map_entries (f + 1) kt vt [] = .ok [] := rfl

lemma wme_cons (f : Nat) (kt vt : Int) (a b : DocValue)
    (rest : List (DocValue × DocValue)) :
    write_map_entries (f + 1) kt vt ((a, b) :: rest) =
      write_field_value f kt a >>= fun kb =>
        write_field_value f vt b >>= fun vb =>
          write_map_entries f kt vt rest >>= fun tail =>
            .ok (kb ++ vb ++ tail) := rfl

lemma ws_step (f : Nat) (fs : List DocField) :
    write_struct (f + 1) fs =
      write_fields f fs >>= fun body => .ok (body ++ [0]) := rfl

lemma wf_nil (f : Nat) : write_fields (f + 1) [] = .ok [] := rfl

lemma wf_cons_char (f : Nat) (fd : DocField) (rest : List DocField) :
    write_fields (f + 1) (fd :: rest) =
      (do
        let ft ← fieldTagOf fd.field_type
        let tb ← writeByte ft
        let idb ← writeI16 fd.field_id
        let vb ← write_value f ft fd
        let tail ← write_fields f rest
        Except.ok (tb ++ idb ++ vb ++ tail)) := rfl

lemma wf_cons (f : Nat) (fd : DocField) (rest : List DocField) (ft : Int)
    (tb idb vb tail : List Nat)
    (h : fieldTypeMap fd.field_type = some ft)
    (htb : writeByte ft = .ok tb) (hidb : writeI16 fd.field_id = .ok idb)
    (hvb : write_value f ft fd = .ok vb)
    (htail : write_fields f rest = .ok tail) :
    write_fields (f + 1) (fd :: rest) = .ok (tb ++ idb ++ vb ++ tail) := by
  rw [wf_cons_char]
  rw [show fieldTagOf fd.field_type = Except.ok ft by
    unfold fieldTagOf; rw [h], except_ok_bind]
  rw [htb, except_ok_bind, hidb, except_ok_bind, hvb, except_ok_bind,
    htail, except_ok_bind]

/-! ## Inference facts and per-element round trips -/

lemma inferList_bool (items : List DocValue) (hne : items ≠ [])
    (hall : ∀ x ∈ items, ∃ b, x = DocValue.vbool b) :
    inferListElementType items = TBOOL := by
  have h1 : items.all isScalarPy = true := by
    rw [List.all_eq_true]; intro x hx; obtain ⟨b, rfl⟩ := hall x hx; rfl
  have h2 : items.all isInstBool = true := by
    rw [List.all_eq_true]; intro x hx; obtain ⟨b, rfl⟩ := hall x hx; rfl
  have h3 : items.isEmpty = false := by
    cases items with
    | nil => exact absurd rfl hne
    | cons y t => rfl
  simp [inferListElementType, h1, h2, h3]

lemma inferList_int (items : List DocValue) (hne : items ≠ [])
    (hall : ∀ x ∈ items, ∃ n : Int, x = DocValue.vint n) :
    inferListElementType items = TI32 := by
  have h1 : items.all isScalarPy = true := by
    rw [List.all_eq_true]; intro x hx; obtain ⟨n, rfl⟩ := hall x hx; rfl
  have h2 : items.all isInstBool = false := by
    cases items with
    | nil => exact absurd rfl hne
    | cons y t =>
      obtain ⟨n, rfl⟩ := hall y (List.mem_cons_self y t)
      simp [isInstBool]
  have h3 : items.all isInstInt = true := by
    rw [List.all_eq_true]; intro x hx; obtain ⟨n, rfl⟩ := hall x hx; rfl
  have h4 : items.isEmpty = false := by
    cases items with
    | nil => exact absurd rfl hne
    | cons y t => rfl
  simp [inferListElementType, h1, h2, h3, h4]

lemma inferList_float (items : List DocValue) (hne : items ≠ [])
    (hall : ∀ x ∈ items, ∃ bits : Nat, x = DocValue.vfloat bits) :
    inferListElementType items = TDOUBLE := by
  have h1 : items.all isScalarPy = true := by
    rw [List.all_eq_true]; intro x hx; obtain ⟨c, rfl⟩ := hall x hx; rfl
  have h2 : items.all isInstBool = false := by
    cases items with
    | nil => exact absurd rfl hne
    | cons y t =>
      obtain ⟨c, rfl⟩ := hall y (List.mem_cons_self y t)
      simp [isInstBool]
  have h3 : items.all isInstInt = false := by
    cases items with
    | nil => exact absurd rfl hne
    | cons y t =>
      obtain ⟨c, rfl⟩ := hall y (List.mem_cons_self y t)
      simp [isInstInt]
  have h4 : items.all isInstFloat = true := by
    rw [List.all_eq_true]; intro x hx; obtain ⟨c, rfl⟩ := hall x hx; rfl
  have h5 : items.isEmpty = false := by
    cases items with
    | nil => exact absurd rfl hne
    | cons y t => rfl
  simp [inferListElementType, h1, h2, h3, h4, h5]

lemma inferList_str (items : List DocValue) (hne : items ≠ [])
    (hall : ∀ x ∈ items, ∃ s : List Nat, x = DocValue.vstr s) :
    inferListElementType items = TSTRING := by
  have h1 : items.all isScalarPy = true := by
    rw [List.all_eq_true]; intro x hx; obtain ⟨s, rfl⟩ := hall x hx; rfl
  have h2 : items.all isInstBool = false := by
    cases items with
    | nil => exact absurd rfl hne
    | cons y t =>
      obtain ⟨s, rfl⟩ := hall y (List.mem_cons_self y t)
      simp [isInstBool]
  have h3 : items.all isInstInt = false := by
    cases items with
    | nil => exact absurd rfl hne
    | cons y t =>
      obtain ⟨s, rfl⟩ := hall y (List.mem_cons_self y t)
      simp [isInstInt]
  have h4 : items.all isInstFloat = false := by
    cases items with
    | nil => exact absurd rfl hne
    | cons y t =>
      obtain ⟨s, rfl⟩ := hall y (List.mem_cons_self y t)
      simp [isInstFloat]
  have h5 : items.isEmpty = false := by
    cases items with
    | nil => exact absurd rfl hne
    | cons y t => rfl
  simp [inferListElementType, h1, h2, h3, h4, h5]

lemma inferList_structs (items : List DocValue) (x : DocValue)
    (hx : x ∈ items) (fs : List DocField) (hxs : x = DocValue.vstruct fs) :
    inferListElementType items = TSTRUCT := by
  have h1 : items.all isScalarPy = false := by
    rw [List.all_eq_false]
    exact ⟨x, hx, by subst hxs; simp [isScalarPy]⟩
  simp [inferListElementType, h1]

lemma inferSet_str (items : List DocValue)
    (hall : ∀ x ∈ items, ∃ s : List Nat, x = DocValue.vstr s) :
    inferSetElementType items = TSTRING := by
  have h1 : items.all isScalarPy = true := by
    rw [List.all_eq_true]; intro x hx; obtain ⟨s, rfl⟩ := hall x hx; rfl
  simp [inferSetElementType, h1]

lemma inferSet_structs (items : List DocValue) (x : DocValue)
    (hx : x ∈ items) (fs : List DocField) (hxs : x = DocValue.vstruct fs) :
    inferSetElementType items = TSTRUCT := by
  have h1 : items.all isScalarPy = false := by
    rw [List.all_eq_false]
    exact ⟨x, hx, by subst hxs; simp [isScalarPy]⟩
  simp [inferSetElementType, h1]

lemma fieldTypeMap_cases (tn : TName) (ft : Int)
    (h : fieldTypeMap tn = some ft) : -128 ≤ ft ∧ ft < 128 ∧ ¬ft = TSTOP := by
  cases tn <;> simp [fieldTypeMap] at h <;> subst h <;> decide

lemma pyInsertV_fresh (acc : List (List Nat × DocValue)) (k : List Nat)
    (v : DocValue) (h : ∀ p ∈ acc, ¬p.1 = k) :
    pyInsertV acc k v = acc ++ [(k, v)] := by
  unfold pyInsertV
  rw [if_neg]
  intro hc
  rw [List.any_eq_true] at hc
  obtain ⟨p, hp, he⟩ := hc
  exact h p hp (of_decide_eq_true he)

lemma elem_rt_bool (b : Bool) :
    ∃ bs, (∀ f, write_field_value (f + 1) TBOOL (.vbool b) = .ok bs) ∧
      ∀ f extra, decodeValue (f + 1) TBOOL (bs ++ extra) =
        .ok (.vbool b, extra) := by
  refine ⟨writeBool b, fun f => wfv_bool f b, fun f extra => ?_⟩
  rw [dv_bool, readBool_writeBool b extra, except_ok_bind]

lemma elem_rt_i32 (n : Int) (h1 : -(2 ^ 31) ≤ n) (h2 : n < 2 ^ 31) :
    ∃ bs, (∀ f, write_field_value (f + 1) TI32 (.vint n) = .ok bs) ∧
      ∀ f extra, decodeValue (f + 1) TI32 (bs ++ extra) =
        .ok (.vint n, extra) := by
  obtain ⟨bs, hw, hr⟩ := readI32_writeI32 n h1 h2
  refine ⟨bs, fun f => by rw [wfv_i32]; exact hw, fun f extra => ?_⟩
  rw [dv_i32, hr extra, except_ok_bind]

lemma elem_rt_double (bits : Nat) (h : bits < 2 ^ 64) :
    ∃ bs, (∀ f, write_field_value (f + 1) TDOUBLE (.vfloat bits) = .ok bs) ∧
      ∀ f extra, decodeValue (f + 1) TDOUBLE (bs ++ extra) =
        .ok (.vfloat bits, extra) := by
  refine ⟨writeDouble bits, fun f => wfv_double f bits, fun f extra => ?_⟩
  rw [dv_double, readDouble_writeDouble bits h extra, except_ok_bind]

lemma elem_rt_string (s : List Nat) (h : s.length < 2 ^ 31) :
    ∃ bs, (∀ f, write_field_value (f + 1) TSTRING (.vstr s) = .ok bs) ∧
      ∀ f extra, decodeValue (f + 1) TSTRING (bs ++ extra) =
        .ok (.vstr s, extra) := by
  obtain ⟨bs, hw, hr⟩ := readString_writeString s h
  refine ⟨bs, fun f => by rw [wfv_string]; exact hw, fun f extra => ?_⟩
  rw [dv_string, hr extra, except_ok_bind]

lemma readFieldBegin_write (ft : Int) (h0 : ¬ft = TSTOP)
    (h1 : -128 ≤ ft) (h2 : ft < 128) (fid : Int)
    (hf1 : -(2 ^ 15) ≤ fid) (hf2 : fid < 2 ^ 15) :
    ∃ tb idb, writeByte ft = .ok tb ∧ writeI16 fid = .ok idb ∧
      ∀ extra, readFieldBegin (tb ++ idb ++ extra) = .ok (ft, fid, extra) := by
  obtain ⟨tb, htb, hrb⟩ := readByte_writeByte ft h1 h2
  obtain ⟨idb, hib, hri⟩ := readI16_writeI16 fid hf1 hf2
  refine ⟨tb, idb, htb, hib, fun extra => ?_⟩
  unfold readFieldBegin
  rw [List.append_assoc, hrb (idb ++ extra), except_ok_bind]
  show (if ft = TSTOP then Except.ok (ft, 0, idb ++ extra)
      else readI16 (idb ++ extra) >>= fun r => Except.ok (ft, r.1, r.2)) =
    Except.ok (ft, fid, extra)
  rw [if_neg h0, hri extra, except_ok_bind]

lemma toSigned_small (et : Int) (h1 : 0 ≤ et) (h2 : et < 128) :
    toSigned 8 ((et.emod 256).toNat) = et := by
  have he : et.emod 256 = et := Int.emod_eq_of_lt h1 (by omega)
  unfold toSigned
  rw [he, if_pos (by norm_num; omega)]
  omega

lemma readListBegin_write (et : Int) (h1 : 0 ≤ et) (h2 : et < 128)
    (len : Nat) (hl : len < 2 ^ 31) :
    ∃ sizeB, writeI32 len = .ok sizeB ∧
      ∀ extra, readListBegin ((et.emod 256).toNat :: (sizeB ++ extra)) =
        .ok (et, len, extra) := by
  obtain ⟨sizeB, hw, hr⟩ := readI32_writeI32 (len : Int) (by omega)
    (by norm_num at hl ⊢; omega)
  refine ⟨sizeB, hw, fun extra => ?_⟩
  unfold readListBegin
  simp only [readByte_cons, except_ok_bind, toSigned_small et h1 h2, hr]
  rw [if_neg (show ¬((len : Int) < 0) by omega)]
  norm_num

lemma readMapBegin_write (len : Nat) (hl : len < 2 ^ 31) :
    ∃ sizeB, writeI32 len = .ok sizeB ∧
      ∀ extra, readMapBegin (11 :: (11 :: (sizeB ++ extra))) =
        .ok (TSTRING, TSTRING, len, extra) := by
  obtain ⟨sizeB, hw, hr⟩ := readI32_writeI32 (len : Int) (by omega)
    (by norm_num at hl ⊢; omega)
  refine ⟨sizeB, hw, fun extra => ?_⟩
  unfold readMapBegin
  simp only [readByte_cons, except_ok_bind, hr]
  rw [if_neg (show ¬((len : Int) < 0) by omega)]
  norm_num [TSTRING, toSigned]

lemma plain_items_rt (et : Int) (items : List DocValue)
    (hall : ∀ x ∈ items, ∃ bs,
      (∀ f, write_field_value (f + 1) et x = .ok bs) ∧
      ∀ f extra, decodeValue (f + 1) et (bs ++ extra) = .ok (x, extra)) :
    ∃ bs,
      (∀ fuel, measureL items ≤ fuel →
        write_plain_items fuel et items = .ok bs) ∧
      ∀ fuel extra, measureL items ≤ fuel →
        readItems fuel et items.length (bs ++ extra) = .ok (items, extra) := by
  induction items with
  | nil =>
    refine ⟨[], fun fuel hf => ?_, fun fuel extra hf => ?_⟩
    · obtain ⟨g, rfl⟩ : ∃ g, fuel = g + 1 := ⟨fuel - 1, by
        simp [measureL] at hf; omega⟩
      exact wpi_nil g et
    · obtain ⟨g, rfl⟩ : ∃ g, fuel = g + 1 := ⟨fuel - 1, by
        simp [measureL] at hf; omega⟩
      simpa using ri_zero g et extra
  | cons x rest ih =>
    obtain ⟨bx, hwx, hrx⟩ := hall x (List.mem_cons_self x rest)
    obtain ⟨brest, hwrest, hrrest⟩ :=
      ih (fun y hy => hall y (List.mem_cons_of_mem _ hy))
    have h4 := measureV_pos x
    have h5 := measureL_pos rest
    refine ⟨bx ++ brest, fun fuel hf => ?_, fun fuel extra hf => ?_⟩
    · have hm : measureV x + measureL rest ≤ fuel := by
        simpa [measureL] using hf
      obtain ⟨g, rfl⟩ : ∃ g, fuel = g + 1 := ⟨fuel - 1, by omega⟩
      rw [wpi_cons]
      obtain ⟨g2, rfl⟩ : ∃ g2, g = g2 + 1 := ⟨g - 1, by omega⟩
      rw [hwx g2, except_ok_bind, hwrest (g2 + 1) (by omega),
        except_ok_bind]
    · have hm : measureV x + measureL rest ≤ fuel := by
        simpa [measureL] using hf
      obtain ⟨g, rfl⟩ : ∃ g, fuel = g + 1 := ⟨fuel - 1, by omega⟩
      rw [show (x :: rest).length = rest.length + 1 from rfl, ri_succ,
        List.append_assoc]
      obtain ⟨g2, rfl⟩ : ∃ g2, g = g2 + 1 := ⟨g - 1, by omega⟩
      rw [hrx g2 (brest ++ extra), except_ok_bind,
        hrrest (g2 + 1) extra (by omega), except_ok_bind]

lemma RTValue_bool (b : Bool) : RTValue .tbool (.vbool b) := by
  refine ⟨TBOOL, writeBool b, rfl, rfl, fun fid fuel hf => ?_,
    fun fuel extra hf => ?_⟩
  · obtain ⟨f, rfl⟩ : ∃ f, fuel = f + 1 := ⟨fuel - 1, by
      simp [measureV] at hf; omega⟩
    exact wv_bool f fid _ none none none b
  · obtain ⟨f, rfl⟩ : ∃ f, fuel = f + 1 := ⟨fuel - 1, by
      simp [measureV] at hf; omega⟩
    rw [dv_bool, readBool_writeBool b extra, except_ok_bind]

lemma RTValue_i8 (n : Int) (h1 : -128 ≤ n) (h2 : n < 128) :
    RTValue .ti8 (.vint n) := by
  obtain ⟨bs, hw, hr⟩ := readByte_writeByte n h1 h2
  refine ⟨TBYTE, bs, rfl, rfl, fun fid fuel hf => ?_,
    fun fuel extra hf => ?_⟩
  · obtain ⟨f, rfl⟩ : ∃ f, fuel = f + 1 := ⟨fuel - 1, by
      simp [measureV] at hf; omega⟩
    rw [wv_byte]; exact hw
  · obtain ⟨f, rfl⟩ : ∃ f, fuel = f + 1 := ⟨fuel - 1, by
      simp [measureV] at hf; omega⟩
    rw [dv_byte, hr extra, except_ok_bind]

lemma RTValue_i16 (n : Int) (h1 : -(2 ^ 15) ≤ n) (h2 : n < 2 ^ 15) :
    RTValue .ti16 (.vint n) := by
  obtain ⟨bs, hw, hr⟩ := readI16_writeI16 n h1 h2
  refine ⟨TI16, bs, rfl, rfl, fun fid fuel hf => ?_,
    fun fuel extra hf => ?_⟩
  · obtain ⟨f, rfl⟩ : ∃ f, fuel = f + 1 := ⟨fuel - 1, by
      simp [measureV] at hf; omega⟩
    rw [wv_i16]; exact hw
  · obtain ⟨f, rfl⟩ : ∃ f, fuel = f + 1 := ⟨fuel - 1, by
      simp [measureV] at hf; omega⟩
    rw [dv_i16, hr extra, except_ok_bind]

lemma RTValue_i32 (n : Int) (h1 : -(2 ^ 31) ≤ n) (h2 : n < 2 ^ 31) :
    RTValue .ti32 (.vint n) := by
  obtain ⟨bs, hw, hr⟩ := readI32_writeI32 n h1 h2
  refine ⟨TI32, bs, rfl, rfl, fun fid fuel hf => ?_,
    fun fuel extra hf => ?_⟩
  · obtain ⟨f, rfl⟩ : ∃ f, fuel = f + 1 := ⟨fuel - 1, by
      simp [measureV] at hf; omega⟩
    rw [wv_i32]; exact hw
  · obtain ⟨f, rfl⟩ : ∃ f, fuel = f + 1 := ⟨fuel - 1, by
      simp [measureV] at hf; omega⟩
    rw [dv_i32, hr extra, except_ok_bind]

lemma RTValue_i64 (n : Int) (h1 : -(2 ^ 63) ≤ n) (h2 : n < 2 ^ 63) :
    RTValue .ti64 (.vint n) := by
  obtain ⟨bs, hw, hr⟩ := readI64_writeI64 n h1 h2
  refine ⟨TI64, bs, rfl, rfl, fun fid fuel hf => ?_,
    fun fuel extra hf => ?_⟩
  · obtain ⟨f, rfl⟩ : ∃ f, fuel = f + 1 := ⟨fuel - 1, by
      simp [measureV] at hf; omega⟩
    rw [wv_i64]; exact hw
  · obtain ⟨f, rfl⟩ : ∃ f, fuel = f + 1 := ⟨fuel - 1, by
      simp [measureV] at hf; omega⟩
    rw [dv_i64, hr extra, except_ok_bind]

lemma RTValue_double (bits : Nat) (h : bits < 2 ^ 64) :
    RTValue .tdouble (.vfloat bits) := by
  refine ⟨TDOUBLE, writeDouble bits, rfl, rfl, fun fid fuel hf => ?_,
    fun fuel extra hf => ?_⟩
  · obtain ⟨f, rfl⟩ : ∃ f, fuel = f + 1 := ⟨fuel - 1, by
      simp [measureV] at hf; omega⟩
    exact wv_double f fid _ none none none bits
  · obtain ⟨f, rfl⟩ : ∃ f, fuel = f + 1 := ⟨fuel - 1, by
      simp [measureV] at hf; omega⟩
    rw [dv_double, readDouble_writeDouble bits h extra, except_ok_bind]

lemma RTValue_string (s : List Nat) (h : s.length < 2 ^ 31) :
    RTValue .tstring (.vstr s) := by
  obtain ⟨bs, hw, hr⟩ := readString_writeString s h
  refine ⟨TSTRING, bs, rfl, rfl, fun fid fuel hf => ?_,
    fun fuel extra hf => ?_⟩
  · obtain ⟨f, rfl⟩ : ∃ f, fuel = f + 1 := ⟨fuel - 1, by
      simp [measureV] at hf; omega⟩
    rw [wv_string]; exact hw
  · obtain ⟨f, rfl⟩ : ∃ f, fuel = f + 1 := ⟨fuel - 1, by
      simp [measureV] at hf; omega⟩
    rw [dv_string, hr extra, except_ok_bind]

lemma RTValue_struct (fs : List DocField) (h : RTFields fs) :
    RTValue .tstruct (.vstruct fs) := by
  obtain ⟨bsf, hwf, hrf⟩ := h
  refine ⟨TSTRUCT, bsf ++ [0], rfl, rfl, fun fid fuel hf => ?_,
    fun fuel extra hf => ?_⟩
  · have hm : 4 + measureF fs ≤ fuel := by simpa [measureV] using hf
    obtain ⟨f, rfl⟩ : ∃ f, fuel = f + 1 := ⟨fuel - 1, by omega⟩
    obtain ⟨g, rfl⟩ : ∃ g, f = g + 1 := ⟨f - 1, by omega⟩
    obtain ⟨h2, rfl⟩ : ∃ h2, g = h2 + 1 := ⟨g - 1, by omega⟩
    rw [wv_struct, wvs_struct, ws_step, hwf h2 (by omega), except_ok_bind]
  · have hm : 4 + measureF fs ≤ fuel := by simpa [measureV] using hf
    obtain ⟨f, rfl⟩ : ∃ f, fuel = f + 1 := ⟨fuel - 1, by omega⟩
    rw [dv_struct, List.append_assoc, List.singleton_append,
      hrf f extra (by omega), except_ok_bind]

lemma RTValue_list_empty : RTValue .tlist (.varr []) := by
  obtain ⟨sizeB, hw, hr⟩ := readListBegin_write TSTRUCT
    (by norm_num [TSTRUCT]) (by norm_num [TSTRUCT]) 0 (by norm_num)
  refine ⟨TLIST, (TSTRUCT.emod 256).toNat :: sizeB, rfl, rfl,
    fun fid fuel hf => ?_, fun fuel extra hf => ?_⟩
  · have hm : (5 : Nat) ≤ fuel := by simpa [measureV, measureL] using hf
    obtain ⟨f, rfl⟩ : ∃ f, fuel = f + 1 := ⟨fuel - 1, by omega⟩
    obtain ⟨g, rfl⟩ : ∃ g, f = g + 1 := ⟨f - 1, by omega⟩
    obtain ⟨g2, rfl⟩ : ∃ g2, g = g2 + 1 := ⟨g - 1, by omega⟩
    rw [wv_list, wvlist_items_struct (g2 + 1) fid _ none none [] sizeB []
      rfl hw (wsi_nil g2)]
    simp
  · have hm : (5 : Nat) ≤ fuel := by simpa [measureV, measureL] using hf
    obtain ⟨f, rfl⟩ : ∃ f, fuel = f + 1 := ⟨fuel - 1, by omega⟩
    obtain ⟨f2, rfl⟩ : ∃ f2, f = f2 + 1 := ⟨f - 1, by omega⟩
    rw [dv_list, List.cons_append, hr extra, except_ok_bind, ri_zero,
      except_ok_bind]

lemma RTValue_list_plain_aux (items : List DocValue) (et : Int)
    (hinf : inferListElementType items = et) (hne2 : ¬et = TSTRUCT)
    (h1 : 0 ≤ et) (h2 : et < 128) (hlen : items.length < 2 ^ 31)
    (hall : ∀ x ∈ items, ∃ bs,
      (∀ f, write_field_value (f + 1) et x = .ok bs) ∧
      ∀ f extra, decodeValue (f + 1) et (bs ++ extra) = .ok (x, extra)) :
    RTValue .tlist (.varr items) := by
  obtain ⟨body, hwb, hrb⟩ := plain_items_rt et items hall
  obtain ⟨sizeB, hw, hr⟩ := readListBegin_write et h1 h2 items.length hlen
  refine ⟨TLIST, (et.emod 256).toNat :: (sizeB ++ body), rfl, rfl,
    fun fid fuel hf => ?_, fun fuel extra hf => ?_⟩
  · have hm : 4 + measureL items ≤ fuel := by simpa [measureV] using hf
    have hp := measureL_pos items
    obtain ⟨f, rfl⟩ : ∃ f, fuel = f + 1 := ⟨fuel - 1, by omega⟩
    obtain ⟨g, rfl⟩ : ∃ g, f = g + 1 := ⟨f - 1, by omega⟩
    rw [wv_list, wvlist_plain g fid _ none none items et sizeB body hinf
      hne2 hw (hwb g (by omega))]
    simp [List.cons_append]
  · have hm : 4 + measureL items ≤ fuel := by simpa [measureV] using hf
    obtain ⟨f, rfl⟩ : ∃ f, fuel = f + 1 := ⟨fuel - 1, by omega⟩
    rw [dv_list]
    rw [show ((et.emod 256).toNat :: (sizeB ++ body)) ++ extra =
      (et.emod 256).toNat :: (sizeB ++ (body ++ extra)) by
        simp [List.cons_append, List.append_assoc]]
    rw [hr (body ++ extra), except_ok_bind, hrb f extra (by omega),
      except_ok_bind]

lemma RTValue_list_bool (items : List DocValue) (hne : items ≠ [])
    (hlen : items.length < 2 ^ 31)
    (hall : ∀ x ∈ items, ∃ b, x = DocValue.vbool b) :
    RTValue .tlist (.varr items) :=
  RTValue_list_plain_aux items TBOOL (inferList_bool items hne hall)
    (by norm_num [TBOOL, TSTRUCT]) (by norm_num [TBOOL])
    (by norm_num [TBOOL]) hlen
    (fun x hx => by obtain ⟨b, rfl⟩ := hall x hx; exact elem_rt_bool b)

lemma RTValue_list_int (items : List DocValue) (hne : items ≠ [])
    (hlen : items.length < 2 ^ 31)
    (hall : ∀ x ∈ items, ∃ n : Int, x = DocValue.vint n ∧
      -(2 ^ 31) ≤ n ∧ n < 2 ^ 31) :
    RTValue .tlist (.varr items) :=
  RTValue_list_plain_aux items TI32
    (inferList_int items hne
      (fun x hx => by obtain ⟨n, rfl, _, _⟩ := hall x hx; exact ⟨n, rfl⟩))
    (by norm_num [TI32, TSTRUCT]) (by norm_num [TI32])
    (by norm_num [TI32]) hlen
    (fun x hx => by
      obtain ⟨n, rfl, ha, hb⟩ := hall x hx
      exact elem_rt_i32 n ha hb)

lemma RTValue_list_float (items : List DocValue) (hne : items ≠ [])
    (hlen : items.length < 2 ^ 31)
    (hall : ∀ x ∈ items, ∃ bits : Nat, x = DocValue.vfloat bits ∧
      bits < 2 ^ 64) :
    RTValue .tlist (.varr items) :=
  RTValue_list_plain_aux items TDOUBLE
    (inferList_float items hne
      (fun x hx => by obtain ⟨c, rfl, _⟩ := hall x hx; exact ⟨c, rfl⟩))
    (by norm_num [TDOUBLE, TSTRUCT]) (by norm_num [TDOUBLE])
    (by norm_num [TDOUBLE]) hlen
    (fun x hx => by
      obtain ⟨c, rfl, hc⟩ := hall x hx
      exact elem_rt_double c hc)

lemma RTValue_list_str (items : List DocValue) (hne : items ≠ [])
    (hlen : items.length < 2 ^ 31)
    (hall : ∀ x ∈ items, ∃ s : List Nat, x = DocValue.vstr s ∧
      s.length < 2 ^ 31) :
    RTValue .tlist (.varr items) :=
  RTValue_list_plain_aux items TSTRING
    (inferList_str items hne
      (fun x hx => by obtain ⟨s, rfl, _⟩ := hall x hx; exact ⟨s, rfl⟩))
    (by norm_num [TSTRING, TSTRUCT]) (by norm_num [TSTRING])
    (by norm_num [TSTRING]) hlen
    (fun x hx => by
      obtain ⟨s, rfl, hs⟩ := hall x hx
      exact elem_rt_string s hs)

lemma RTValue_list_struct (items : List DocValue)
    (hlen : items.length < 2 ^ 31) (x : DocValue) (fs : List DocField)
    (hx : x ∈ items) (hxs : x = DocValue.vstruct fs)
    (hS : RTStructItems items) : RTValue .tlist (.varr items) := by
  have hinf := inferList_structs items x hx fs hxs
  obtain ⟨body, hwb, hrb⟩ := hS
  obtain ⟨sizeB, hw, hr⟩ := readListBegin_write TSTRUCT
    (by norm_num [TSTRUCT]) (by norm_num [TSTRUCT]) items.length hlen
  refine ⟨TLIST, (TSTRUCT.emod 256).toNat :: (sizeB ++ body), rfl, rfl,
    fun fid fuel hf => ?_, fun fuel extra hf => ?_⟩
  · have hm : 4 + measureL items ≤ fuel := by simpa [measureV] using hf
    have hp := measureL_pos items
    obtain ⟨f, rfl⟩ : ∃ f, fuel = f + 1 := ⟨fuel - 1, by omega⟩
    obtain ⟨g, rfl⟩ : ∃ g, f = g + 1 := ⟨f - 1, by omega⟩
    rw [wv_list, wvlist_items_struct g fid _ none none items sizeB body
      hinf hw (hwb g (by omega))]
    simp [List.cons_append]
  · have hm : 4 + measureL items ≤ fuel := by simpa [measureV] using hf
    obtain ⟨f, rfl⟩ : ∃ f, fuel = f + 1 := ⟨fuel - 1, by omega⟩
    rw [dv_list]
    rw [show ((TSTRUCT.emod 256).toNat :: (sizeB ++ body)) ++ extra =
      (TSTRUCT.emod 256).toNat :: (sizeB ++ (body ++ extra)) by
        simp [List.cons_append, List.append_assoc]]
    rw [hr (body ++ extra), except_ok_bind, hrb f extra (by omega),
      except_ok_bind]

lemma readSetBegin_eq (st : List Nat) : readSetBegin st = readListBegin st :=
  rfl

lemma RTValue_set_str (items : List DocValue)
    (hlen : items.length < 2 ^ 31)
    (hall : ∀ x ∈ items, ∃ s : List Nat, x = DocValue.vstr s ∧
      s.length < 2 ^ 31) :
    RTValue .tset (.varr items) := by
  have hinf := inferSet_str items
    (fun x hx => by obtain ⟨s, rfl, _⟩ := hall x hx; exact ⟨s, rfl⟩)
  obtain ⟨body, hwb, hrb⟩ := plain_items_rt TSTRING items
    (fun x hx => by
      obtain ⟨s, rfl, hs⟩ := hall x hx
      exact elem_rt_string s hs)
  obtain ⟨sizeB, hw, hr⟩ := readListBegin_write TSTRING
    (by norm_num [TSTRING]) (by norm_num [TSTRING]) items.length hlen
  refine ⟨TSET, (TSTRING.emod 256).toNat :: (sizeB ++ body), rfl, rfl,
    fun fid fuel hf => ?_, fun fuel extra hf => ?_⟩
  · have hm : 4 + measureL items ≤ fuel := by simpa [measureV] using hf
    have hp := measureL_pos items
    obtain ⟨f, rfl⟩ : ∃ f, fuel = f + 1 := ⟨fuel - 1, by omega⟩
    obtain ⟨g, rfl⟩ : ∃ g, f = g + 1 := ⟨f - 1, by omega⟩
    rw [wv_set, wvset_plain g fid _ none none none items TSTRING sizeB
      body hinf (by norm_num [TSTRING, TSTRUCT]) hw (hwb g (by omega))]
    simp [List.cons_append]
  · have hm : 4 + measureL items ≤ fuel := by simpa [measureV] using hf
    obtain ⟨f, rfl⟩ : ∃ f, fuel = f + 1 := ⟨fuel - 1, by omega⟩
    rw [dv_set, readSetBegin_eq]
    rw [show ((TSTRING.emod 256).toNat :: (sizeB ++ body)) ++ extra =
      (TSTRING.emod 256).toNat :: (sizeB ++ (body ++ extra)) by
        simp [List.cons_append, List.append_assoc]]
    rw [hr (body ++ extra), except_ok_bind, hrb f extra (by omega),
      except_ok_bind]

lemma RTValue_set_struct (items : List DocValue)
    (hlen : items.length < 2 ^ 31) (x : DocValue) (fs : List DocField)
    (hx : x ∈ items) (hxs : x = DocValue.vstruct fs)
    (hS : RTStructItems items) : RTValue .tset (.varr items) := by
  have hinf := inferSet_structs items x hx fs hxs
  obtain ⟨body, hwb, hrb⟩ := hS
  obtain ⟨sizeB, hw, hr⟩ := readListBegin_write TSTRUCT
    (by norm_num [TSTRUCT]) (by norm_num [TSTRUCT]) items.length hlen
  refine ⟨TSET, (TSTRUCT.emod 256).toNat :: (sizeB ++ body), rfl, rfl,
    fun fid fuel hf => ?_, fun fuel extra hf => ?_⟩
  · have hm : 4 + measureL items ≤ fuel := by simpa [measureV] using hf
    have hp := measureL_pos items
    obtain ⟨f, rfl⟩ : ∃ f, fuel = f + 1 := ⟨fuel - 1, by omega⟩
    obtain ⟨g, rfl⟩ : ∃ g, f = g + 1 := ⟨f - 1, by omega⟩
    rw [wv_set, wvset_items_struct g fid _ none none none items sizeB
      body hinf hw (hwb g (by omega))]
    simp [List.cons_append]
  · have hm : 4 + measureL items ≤ fuel := by simpa [measureV] using hf
    obtain ⟨f, rfl⟩ : ∃ f, fuel = f + 1 := ⟨fuel - 1, by omega⟩
    rw [dv_set, readSetBegin_eq]
    rw [show ((TSTRUCT.emod 256).toNat :: (sizeB ++ body)) ++ extra =
      (TSTRUCT.emod 256).toNat :: (sizeB ++ (body ++ extra)) by
        simp [List.cons_append, List.append_assoc]]
    rw [hr (body ++ extra), except_ok_bind, hrb f extra (by omega),
      except_ok_bind]

lemma RTValue_map (entries : List (List Nat × DocValue))
    (hlen : entries.length < 2 ^ 31) (hE : RTEntries entries) :
    RTValue .tmap (.vdict entries) := by
  obtain ⟨body, hwb, hrb⟩ := hE
  obtain ⟨sizeB, hw, hr⟩ := readMapBegin_write entries.length hlen
  refine ⟨TMAP, 11 :: (11 :: (sizeB ++ body)), rfl, rfl,
    fun fid fuel hf => ?_, fun fuel extra hf => ?_⟩
  · have hm : 4 + measureE entries ≤ fuel := by simpa [measureV] using hf
    have hp := measureE_pos entries
    obtain ⟨f, rfl⟩ : ∃ f, fuel = f + 1 := ⟨fuel - 1, by omega⟩
    obtain ⟨g, rfl⟩ : ∃ g, f = g + 1 := ⟨f - 1, by omega⟩
    have h1 : writeI32
        ((entries.map fun p => (DocValue.vstr p.1, p.2)).length : Int) =
        .ok sizeB := by rw [List.length_map]; exact hw
    rw [wv_map, wvm_dict g fid _ none entries sizeB body h1
      (hwb g (by omega))]
    simp [List.cons_append]
  · have hm : 4 + measureE entries ≤ fuel := by simpa [measureV] using hf
    obtain ⟨f, rfl⟩ : ∃ f, fuel = f + 1 := ⟨fuel - 1, by omega⟩
    rw [dv_map]
    rw [show (11 :: (11 :: (sizeB ++ body))) ++ extra =
      11 :: (11 :: (sizeB ++ (body ++ extra))) by
        simp [List.cons_append, List.append_assoc]]
    rw [hr (body ++ extra), except_ok_bind,
      hrb f 0 [] extra (by omega) (by intro p hp; cases hp),
      except_ok_bind]
    rw [List.nil_append]

lemma readFieldBegin_stop (extra : List Nat) :
    readFieldBegin (0 :: extra) = .ok (0, 0, extra) := by
  unfold readFieldBegin
  rw [readByte_cons, except_ok_bind]
  norm_num [toSigned, TSTOP]

lemma RTFields_nil : RTFields [] := by
  refine ⟨[], fun fuel hf => ?_, fun fuel extra hf => ?_⟩
  · obtain ⟨f, rfl⟩ : ∃ f, fuel = f + 1 := ⟨fuel - 1, by
      simp [measureF] at hf; omega⟩
    exact wf_nil f
  · obtain ⟨f, rfl⟩ : ∃ f, fuel = f + 1 := ⟨fuel - 1, by
      simp [measureF] at hf; omega⟩
    rw [rsf_step, List.nil_append, readFieldBegin_stop, except_ok_bind]
    show (if (0 : Int) = TSTOP then Except.ok (([] : List DocField), extra)
      else decodeValue f (0 : Int) extra >>= fun q =>
        readStructFields f q.2 >>= fun w =>
          Except.ok (DocField.mk 0 (typeNameOf 0) none none none q.1 ::
            w.1, w.2)) = Except.ok ([], extra)
    rw [if_pos (show (0 : Int) = TSTOP from rfl)]

lemma RTFields_cons (fid : Int) (tn : TName) (v : DocValue)
    (rest : List DocField) (hf1 : -(2 ^ 15) ≤ fid) (hf2 : fid < 2 ^ 15)
    (hv : RTValue tn v) (hrest : RTFields rest) :
    RTFields (.mk fid tn none none none v :: rest) := by
  obtain ⟨ft, bv, hmap, htn, hwv, hrv⟩ := hv
  obtain ⟨brest, hwrest, hrrest⟩ := hrest
  obtain ⟨hft1, hft2, hft0⟩ := fieldTypeMap_cases tn ft hmap
  obtain ⟨tb, idb, htb, hib, hfb⟩ :=
    readFieldBegin_write ft hft0 hft1 hft2 fid hf1 hf2
  have hmeq : measureF (DocField.mk fid tn none none none v :: rest) =
      4 + measureV v + measureF rest := by
    simp [measureF, measureFd]
  refine ⟨tb ++ idb ++ bv ++ brest, fun fuel hf => ?_,
    fun fuel extra hf => ?_⟩
  · rw [hmeq] at hf
    have hp1 := measureV_pos v
    have hp2 := measureF_pos rest
    obtain ⟨f, rfl⟩ : ∃ f, fuel = f + 1 := ⟨fuel - 1, by omega⟩
    rw [show (DocField.mk fid tn none none none v :: rest) =
      ((DocField.mk fid tn none none none v) :: rest) from rfl]
    exact wf_cons f _ rest ft tb idb bv brest hmap htb hib
      (hwv fid f (by omega)) (hwrest f (by omega))
  · rw [hmeq] at hf
    have hp1 := measureV_pos v
    have hp2 := measureF_pos rest
    obtain ⟨f, rfl⟩ : ∃ f, fuel = f + 1 := ⟨fuel - 1, by omega⟩
    rw [rsf_step]
    rw [show (tb ++ idb ++ bv ++ brest) ++ (0 :: extra) =
      (tb ++ idb) ++ (bv ++ (brest ++ (0 :: extra))) by
        simp [List.append_assoc]]
    rw [hfb (bv ++ (brest ++ (0 :: extra))), except_ok_bind]
    show (if ft = TSTOP then
        Except.ok ([], bv ++ (brest ++ (0 :: extra)))
      else
        decodeValue f ft (bv ++ (brest ++ (0 :: extra))) >>= fun q =>
          readStructFields f q.2 >>= fun w =>
            Except.ok (DocField.mk fid (typeNameOf ft) none none none
              q.1 :: w.1, w.2)) =
      Except.ok (DocField.mk fid tn none none none v :: rest, extra)
    rw [if_neg hft0, hrv f (brest ++ (0 :: extra)) (by omega),
      except_ok_bind, hrrest f extra (by omega), except_ok_bind, htn]

lemma RTStructItems_nil : RTStructItems [] := by
  refine ⟨[], fun fuel hf => ?_, fun fuel extra hf => ?_⟩
  · obtain ⟨f, rfl⟩ : ∃ f, fuel = f + 1 := ⟨fuel - 1, by
      simp [measureL] at hf; omega⟩
    exact wsi_nil f
  · obtain ⟨f, rfl⟩ : ∃ f, fuel = f + 1 := ⟨fuel - 1, by
      simp [measureL] at hf; omega⟩
    simpa using ri_zero f TSTRUCT extra

lemma RTStructItems_cons (fs : List DocField) (rest : List DocValue)
    (hfs : RTFields fs) (hrest : RTStructItems rest) :
    RTStructItems (DocValue.vstruct fs :: rest) := by
  obtain ⟨bsf, hwf, hrf⟩ := hfs
  obtain ⟨brest, hwrest, hrrest⟩ := hrest
  have hmeq : measureL (DocValue.vstruct fs :: rest) =
      4 + measureF fs + measureL rest := by
    simp [measureL, measureV]
  refine ⟨(bsf ++ [0]) ++ brest, fun fuel hf => ?_,
    fun fuel extra hf => ?_⟩
  · rw [hmeq] at hf
    have hp1 := measureF_pos fs
    have hp2 := measureL_pos rest
    obtain ⟨f, rfl⟩ : ∃ f, fuel = f + 1 := ⟨fuel - 1, by omega⟩
    rw [wsi_cons_struct]
    obtain ⟨f2, rfl⟩ : ∃ f2, f = f2 + 1 := ⟨f - 1, by omega⟩
    rw [ws_step, hwf f2 (by omega), except_ok_bind,
      hwrest (f2 + 1) (by omega), except_ok_bind, except_ok_bind]
  · rw [hmeq] at hf
    have hp1 := measureF_pos fs
    have hp2 := measureL_pos rest
    obtain ⟨f, rfl⟩ : ∃ f, fuel = f + 1 := ⟨fuel - 1, by omega⟩
    rw [show (DocValue.vstruct fs :: rest).length = rest.length + 1
      from rfl, ri_succ]
    rw [show ((bsf ++ [0]) ++ brest) ++ extra =
      bsf ++ (0 :: (brest ++ extra)) by
        simp [List.append_assoc]]
    obtain ⟨f2, rfl⟩ : ∃ f2, f = f2 + 1 := ⟨f - 1, by omega⟩
    rw [dv_struct, hrf f2 (brest ++ extra) (by omega), except_ok_bind,
      except_ok_bind, hrrest (f2 + 1) extra (by omega), except_ok_bind]

lemma RTEntries_nil : RTEntries [] := by
  refine ⟨[], fun fuel hf => ?_, fun fuel i acc extra hf hfresh => ?_⟩
  · obtain ⟨f, rfl⟩ : ∃ f, fuel = f + 1 := ⟨fuel - 1, by
      simp [measureE] at hf; omega⟩
    exact wme_nil f TSTRING TSTRING
  · obtain ⟨f, rfl⟩ : ∃ f, fuel = f + 1 := ⟨fuel - 1, by
      simp [measureE] at hf; omega⟩
    rw [show (([] : List (List Nat × DocValue))).length = 0 from rfl,
      List.nil_append, rme_zero, List.append_nil]

lemma RTEntries_cons (k s : List Nat)
    (rest : List (List Nat × DocValue))
    (hk : k.length < 2 ^ 31) (hs : s.length < 2 ^ 31)
    (hknotin : ∀ q ∈ rest, ¬k = q.1) (hrest : RTEntries rest) :
    RTEntries ((k, DocValue.vstr s) :: rest) := by
  obtain ⟨bk, hwk0, hrk0⟩ := readString_writeString k hk
  obtain ⟨bv, hwv0, hrv0⟩ := readString_writeString s hs
  obtain ⟨brest, hwrest, hrrest⟩ := hrest
  have hmeq : measureE ((k, DocValue.vstr s) :: rest) =
      6 + measureE rest := by
    simp [measureE, measureV]
  refine ⟨(bk ++ bv) ++ brest, fun fuel hf => ?_,
    fun fuel i acc extra hf hfresh => ?_⟩
  · rw [hmeq] at hf
    have hp := measureE_pos rest
    obtain ⟨f, rfl⟩ : ∃ f, fuel = f + 1 := ⟨fuel - 1, by omega⟩
    rw [List.map_cons, wme_cons]
    obtain ⟨f2, rfl⟩ : ∃ f2, f = f2 + 1 := ⟨f - 1, by omega⟩
    rw [wfv_string, hwk0, except_ok_bind, wfv_string, hwv0,
      except_ok_bind, hwrest (f2 + 1) (by omega), except_ok_bind]
  · rw [hmeq] at hf
    have hp := measureE_pos rest
    obtain ⟨f, rfl⟩ : ∃ f, fuel = f + 1 := ⟨fuel - 1, by omega⟩
    rw [show ((k, DocValue.vstr s) :: rest).length = rest.length + 1
      from rfl, rme_succ_str]
    rw [show ((bk ++ bv) ++ brest) ++ extra =
      bk ++ (bv ++ (brest ++ extra)) by simp [List.append_assoc]]
    rw [hrk0 (bv ++ (brest ++ extra)), except_ok_bind]
    show (decodeValue f TSTRING (bv ++ (brest ++ extra)) >>= fun vp =>
        readMapEntries f TSTRING TSTRING rest.length (i + 1)
          (pyInsertV acc k vp.1) vp.2) =
      Except.ok (acc ++ ((k, DocValue.vstr s) :: rest), extra)
    obtain ⟨f2, rfl⟩ : ∃ f2, f = f2 + 1 := ⟨f - 1, by omega⟩
    rw [dv_string, hrv0 (brest ++ extra), except_ok_bind, except_ok_bind]
    show readMapEntries (f2 + 1) TSTRING TSTRING rest.length (i + 1)
        (pyInsertV acc k (DocValue.vstr s)) (brest ++ extra) =
      Except.ok (acc ++ ((k, DocValue.vstr s) :: rest), extra)
    rw [pyInsertV_fresh acc k (DocValue.vstr s)
      (fun p hp2 => hfresh p hp2 (k, DocValue.vstr s)
        (List.mem_cons_self _ _))]
    rw [hrrest (f2 + 1) (i + 1) (acc ++ [(k, DocValue.vstr s)]) extra
      (by omega) ?_]
    · rw [List.append_assoc, List.singleton_append]
    · intro p hp2 q hq
      rcases List.mem_append.mp hp2 with hin | hin
      · exact hfresh p hin q (List.mem_cons_of_mem _ hq)
      · rcases List.mem_singleton.mp hin with rfl
        exact hknotin q hq

/-- The combined round trip, by strong induction on the fuel measure:
every well-formed document encodes successfully and its bytes decode
back to the identical document. -/
theorem roundtripAux (n : Nat) :
    (∀ fs, measureF fs ≤ n → WfFields fs → RTFields fs) ∧
    (∀ tn v, measureV v ≤ n → WfValue tn v → RTValue tn v) ∧
    (∀ items, measureL items ≤ n → WfStructItems items →
      RTStructItems items) ∧
    (∀ entries, measureE entries ≤ n → WfStrEntries entries →
      (entries.map Prod.fst).Nodup → RTEntries entries) := by
  induction n using Nat.strong_induction_on with
  | _ n IH =>
    refine ⟨?_, ?_, ?_, ?_⟩
    · intro fs hm hwf
      cases hwf with
      | nil => exact RTFields_nil
      | cons fd rest hfd hrest =>
        cases hfd with
        | mk fid tn v hf1 hf2 hv =>
          have hmeq : measureF (DocField.mk fid tn none none none v ::
              rest) = 4 + measureV v + measureF rest := by
            simp [measureF, measureFd]
          rw [hmeq] at hm
          have hp1 := measureV_pos v
          have hp2 := measureF_pos rest
          exact RTFields_cons fid tn v rest hf1 hf2
            ((IH (measureV v) (by omega)).2.1 tn v le_rfl hv)
            ((IH (measureF rest) (by omega)).1 rest le_rfl hrest)
    · intro tn v hm hwf
      cases hwf with
      | wbool b => exact RTValue_bool b
      | wi8 m ha hb => exact RTValue_i8 m ha hb
      | wi16 m ha hb => exact RTValue_i16 m ha hb
      | wi32 m ha hb => exact RTValue_i32 m ha hb
      | wi64 m ha hb => exact RTValue_i64 m ha hb
      | wdouble bits hb => exact RTValue_double bits hb
      | wstring s hs => exact RTValue_string s hs
      | wstruct fs hfs =>
        have hmeq : measureV (DocValue.vstruct fs) = 4 + measureF fs := by
          simp [measureV]
        rw [hmeq] at hm
        exact RTValue_struct fs ((IH (measureF fs) (by omega)).1 fs
          le_rfl hfs)
      | wlist_empty => exact RTValue_list_empty
      | wlist_bool items hne hlen hall =>
        exact RTValue_list_bool items hne hlen hall
      | wlist_int items hne hlen hall =>
        exact RTValue_list_int items hne hlen hall
      | wlist_float items hne hlen hall =>
        exact RTValue_list_float items hne hlen hall
      | wlist_str items hne hlen hall =>
        exact RTValue_list_str items hne hlen hall
      | wlist_struct items hne hlen hsi =>
        have hmeq : measureV (DocValue.varr items) =
            4 + measureL items := by simp [measureV]
        rw [hmeq] at hm
        obtain ⟨x, fs, hx, hxs⟩ :
            ∃ x fs, x ∈ items ∧ x = DocValue.vstruct fs := by
          cases hsi with
          | nil => exact absurd rfl hne
          | cons fs rest hfs hrest =>
            exact ⟨_, fs, List.mem_cons_self _ _, rfl⟩
        exact RTValue_list_struct items hlen x fs hx hxs
          ((IH (measureL items) (by omega)).2.2.1 items le_rfl hsi)
      | wset_str items hlen hall => exact RTValue_set_str items hlen hall
      | wset_struct items hne hlen hsi =>
        have hmeq : measureV (DocValue.varr items) =
            4 + measureL items := by simp [measureV]
        rw [hmeq] at hm
        obtain ⟨x, fs, hx, hxs⟩ :
            ∃ x fs, x ∈ items ∧ x = DocValue.vstruct fs := by
          cases hsi with
          | nil => exact absurd rfl hne
          | cons fs rest hfs hrest =>
            exact ⟨_, fs, List.mem_cons_self _ _, rfl⟩
        exact RTValue_set_struct items hlen x fs hx hxs
          ((IH (measureL items) (by omega)).2.2.1 items le_rfl hsi)
      | wmap entries hlen hnodup hentries =>
        have hmeq : measureV (DocValue.vdict entries) =
            4 + measureE entries := by simp [measureV]
        rw [hmeq] at hm
        exact RTValue_map entries hlen
          ((IH (measureE entries) (by omega)).2.2.2 entries le_rfl
            hentries hnodup)
    · intro items hm hwf
      cases hwf with
      | nil => exact RTStructItems_nil
      | cons fs rest hfs hrest =>
        have hmeq : measureL (DocValue.vstruct fs :: rest) =
            4 + measureF fs + measureL rest := by
          simp [measureL, measureV]
        rw [hmeq] at hm
        have hp1 := measureF_pos fs
        have hp2 := measureL_pos rest
        exact RTStructItems_cons fs rest
          ((IH (measureF fs) (by omega)).1 fs le_rfl hfs)
          ((IH (measureL rest) (by omega)).2.2.1 rest le_rfl hrest)
    · intro entries hm hwf hnodup
      cases hwf with
      | nil => exact RTEntries_nil
      | cons k s rest hk hs hrest =>
        have hmeq : measureE ((k, DocValue.vstr s) :: rest) =
            6 + measureE rest := by simp [measureE, measureV]
        rw [hmeq] at hm
        have hp := measureE_pos rest
        rw [List.map_cons] at hnodup
        have hnd := List.nodup_cons.mp hnodup
        have hknotin : ∀ q ∈ rest, ¬k = q.1 := by
          intro q hq he
          exact hnd.1 (List.mem_map.mpr ⟨q, hq, he.symm⟩)
        exact RTEntries_cons k s rest hk hs hknotin
          ((IH (measureE rest) (by omega)).2.2.2 rest le_rfl hrest hnd.2)

lemma beBytes_version_reply : beBytes 4 0x80010002 =
    [0x80, 0x01, 0x00, 0x02] := by decide

/-- `C1`: amended round trip.  For a `"reply"` message whose `"args"`
struct is well formed in the sense of `WfFields` — scalars within the
range of their declared type, strings and doubles as produced by the
decoder, structs recursively, homogeneous scalar or struct lists, sets
of strings or of structs, and maps with distinct string keys, string
values and no declared key/value types — `write_thrift_message`
followed by `decode_thrift_message` reproduces the message exactly:
the custom handler fires on the written `80 01 00 02` prefix and
returns the same method, type `"reply"`, sequence id and field list.
The restriction to this class is forced by `C1_counterexample`: already
a set containing the integer 42 decodes back as the string "42", so the
round trip of the original claim fails on documents that use the full
supported type set. -/
theorem C1_reply_roundtrip (method : List Nat) (seqid : Int)
    (fs : List DocField) (fuelW fuelR : Nat)
    (hm : method.length < 2 ^ 31)
    (hs1 : -(2 ^ 31) ≤ seqid) (hs2 : seqid < 2 ^ 31)
    (hwf : WfFields fs)
    (hfW : measureF fs < fuelW) (hfR : measureF fs ≤ fuelR) :
    ∃ bytes,
      write_thrift_message fuelW ⟨method, asciiReply, seqid,
        .vstruct fs⟩ = .ok bytes ∧
      ∀ tmRead, decode_thrift_message tmRead fuelR bytes =
        .customD ⟨method, asciiReply, seqid, none, .fieldsR fs,
          bytes.length⟩ := by
  obtain ⟨bsf, hwfields, hrfields⟩ :=
    (roundtripAux (measureF fs)).1 fs le_rfl hwf
  obtain ⟨nameB, hwn, hrn⟩ := readString_writeString method hm
  obtain ⟨seqB, hws, hrs⟩ := readI32_writeI32 seqid hs1 hs2
  refine ⟨[0x80, 0x01, 0x00, 0x02] ++ (nameB ++ (seqB ++ (bsf ++ [0]))),
    ?_, fun tmRead => ?_⟩
  · unfold write_thrift_message
    rw [show msgTagOf asciiReply = Except.ok 2 from rfl, except_ok_bind,
      hwn, except_ok_bind, hws, except_ok_bind]
    show (if pyTruthy (DocValue.vstruct fs) then
        (match DocValue.vstruct fs with
          | .vstruct fs => write_struct fuelW fs
          | _ => Except.error "unmodelled args subscript") >>= fun body =>
          Except.ok ([0x80, 0x01, 0x00, ((2 : Int).emod 256).toNat] ++
            nameB ++ seqB ++ body)
      else
        Except.ok [0x80, 0x01, 0x00, ((2 : Int).emod 256).toNat] >>=
          fun body =>
            Except.ok ([0x80, 0x01, 0x00, ((2 : Int).emod 256).toNat] ++
              nameB ++ seqB ++ body)) =
      Except.ok ([0x80, 0x01, 0x00, 0x02] ++
        (nameB ++ (seqB ++ (bsf ++ [0]))))
    rw [if_pos (show pyTruthy (DocValue.vstruct fs) = true from rfl)]
    show (write_struct fuelW fs >>= fun body =>
        Except.ok ([0x80, 0x01, 0x00, ((2 : Int).emod 256).toNat] ++
          nameB ++ seqB ++ body)) =
      Except.ok ([0x80, 0x01, 0x00, 0x02] ++
        (nameB ++ (seqB ++ (bsf ++ [0]))))
    obtain ⟨f, rfl⟩ : ∃ f, fuelW = f + 1 := ⟨fuelW - 1, by omega⟩
    rw [ws_step, hwfields f (by omega), except_ok_bind, except_ok_bind]
    simp [List.append_assoc]
    decide
  · have hmsg : readMessageBegin ([0x80, 0x01, 0x00, 0x02] ++
        (nameB ++ (seqB ++ (bsf ++ [0])))) =
        .ok (method, 2, seqid, bsf ++ [0]) := by
      unfold readMessageBegin
      rw [← beBytes_version_reply,
        readBE_beBytes 4 0x80010002 (by norm_num) _, except_ok_bind]
      show (if 2 ^ 31 ≤ (0x80010002 : Nat) then
          if 2 ^ 31 ≤ (0x80010002 : Nat) ∧
              (0x80010002 : Nat) / 2 ^ 16 = 0x8001 then
            readString (nameB ++ (seqB ++ (bsf ++ [0]))) >>= fun n2 =>
              readI32 n2.2 >>= fun s2 =>
                Except.ok (n2.1,
                  (((0x80010002 : Nat) % 256 : Nat) : Int), s2.1, s2.2)
          else Except.error "Bad version in readMessageBegin"
        else
          readBytes (0x80010002 : Nat)
              (nameB ++ (seqB ++ (bsf ++ [0]))) >>= fun n2 =>
            readByte n2.2 >>= fun t2 =>
              readI32 t2.2 >>= fun s2 =>
                Except.ok (n2.1, t2.1, s2.1, s2.2)) =
        Except.ok (method, 2, seqid, bsf ++ [0])
      rw [if_pos (show (2 : Nat) ^ 31 ≤ 0x80010002 by norm_num),
        if_pos ⟨by norm_num, by norm_num⟩,
        hrn (seqB ++ (bsf ++ [0])), except_ok_bind, hrs (bsf ++ [0]),
        except_ok_bind]
      norm_num
    have hex : extract_reply fuelR (bsf ++ [0]) = .fieldsR fs := by
      unfold extract_reply
      rw [show bsf ++ [0] = bsf ++ (0 :: ([] : List Nat)) from rfl,
        hrfields fuelR [] hfR]
    have hcrm : customResponseMessage fuelR
        ([0x80, 0x01, 0x00, 0x02] ++ (nameB ++ (seqB ++ (bsf ++ [0])))) =
        .ok ⟨method, asciiReply, seqid, none, .fieldsR fs,
          ([0x80, 0x01, 0x00, 0x02] ++
            (nameB ++ (seqB ++ (bsf ++ [0])))).length⟩ := by
      unfold customResponseMessage
      rw [hmsg, except_ok_bind]
      show Except.ok (⟨method, asciiReply, seqid, none,
          extract_reply fuelR (bsf ++ [0]),
          ([0x80, 0x01, 0x00, 0x02] ++
            (nameB ++ (seqB ++ (bsf ++ [0])))).length⟩ : CustomDict) =
        Except.ok (⟨method, asciiReply, seqid, none, .fieldsR fs,
          ([0x80, 0x01, 0x00, 0x02] ++
            (nameB ++ (seqB ++ (bsf ++ [0])))).length⟩ : CustomDict)
      rw [hex]
    unfold decode_thrift_message
    rw [if_pos (Or.inl (List.take_left'
      (show ([0x80, 0x01, 0x00, 0x02] : List Nat).length = 4 from rfl))),
      hcrm]

/-- Witness for C1 at a one-field reply message: encode then decode is
the identity on it. -/
theorem C1_reply_roundtrip_witness :
    ∃ bytes,
      write_thrift_message 10 ⟨[97], asciiReply, 0,
        .vstruct [DocField.mk 1 .tbool none none none (.vbool true)]⟩ =
        .ok bytes ∧
      ∀ tmRead, decode_thrift_message tmRead 9 bytes =
        .customD ⟨[97], asciiReply, 0, none,
          .fieldsR [DocField.mk 1 .tbool none none none (.vbool true)],
          bytes.length⟩ :=
  C1_reply_roundtrip [97] 0
    [DocField.mk 1 .tbool none none none (.vbool true)] 10 9
    (by norm_num) (by norm_num) (by norm_num)
    (WfFields.cons _ _
      (WfField.mk 1 .tbool (.vbool true) (by norm_num) (by norm_num)
        (WfValue.wbool true))
      WfFields.nil)
    (by decide) (by decide)

/-- The original C1 claim fails on the full supported type set: a reply
whose body holds a set containing the integer 42 encodes with String
set elements (the SET branch never inspects scalar kinds), so decoding
returns the set containing the string "42", not the original integer. -/
theorem C1_counterexample :
    write_thrift_message 20 ⟨[109], asciiReply, 0,
      .vstruct [DocField.mk 1 .tset none none none
        (.varr [DocValue.vint 42])]⟩ =
      .ok [0x80, 0x01, 0x00, 0x02, 0, 0, 0, 1, 109, 0, 0, 0, 0,
        14, 0, 1, 11, 0, 0, 0, 1, 0, 0, 0, 2, 52, 50, 0] ∧
    decode_thrift_message (fun _ => TMResult.failed) 20
      [0x80, 0x01, 0x00, 0x02, 0, 0, 0, 1, 109, 0, 0, 0, 0,
        14, 0, 1, 11, 0, 0, 0, 1, 0, 0, 0, 2, 52, 50, 0] =
      .customD ⟨[109], asciiReply, 0, none,
        .fieldsR [DocField.mk 1 .tset none none none
          (.varr [DocValue.vstr [52, 50]])], 28⟩ ∧
    DocValue.vstr [52, 50] ≠ DocValue.vint 42 :=
  ⟨rfl, rfl, fun h => DocValue.noConfusion h⟩
